import Mathlib

/-!
# stdlinux: the HTTP/1.x static-file server of `chap17/server2.c`

A shallow embedding of the request parser, the dispatcher, the file resolver and the
response writer of `src/chap17/server2.c`, of the same functions of the stdin/stdout server
`src/chap16/server.c` (namespace `Chap16`), and theorems about them.

Modelling conventions.

* A byte (`char`) is a natural number (`Nat`); real bytes are below 256, and nothing
  below depends on that bound.
* `FILE *in` is the list of bytes the peer sends before it closes the connection.  Every
  reading function returns the bytes that are left.
* A `char` buffer or a `char *` string is a list of bytes with an implicit terminating NUL
  after its last element; a NUL inside the list ends the C string early, exactly as in C.
* `log_exit` ends the worker process with `exit(1)`.  A function that may call it returns
  either its value or the `Exit` record of that call.
* `FILE *out` is the list of bytes written so far.  Writing to it always succeeds, and
  `xmalloc` always returns: resource exhaustion is outside the model.
* The C library functions (`fgets`, `strchr`, `strcmp`, `atoi`, ...) are modelled after the
  C standard in the "C" locale, `atoi` after glibc on LP64 (`(int) strtol (s, NULL, 10)`).
-/

namespace Stdlinux

/-! ## Bytes and C-library functions -/

/-- The bytes of an ASCII string literal. -/
def bytes (s : String) : List Nat := s.toList.map Char.toNat

def MAX_REQUEST_BODY_LENGTH : Int := 1024 * 1024
def LINE_BUF_SIZE : Nat := 4096
def BLOCK_BUF_SIZE : Nat := 4 * 1024 * 1024

/-- C `toupper` in the "C" locale. -/
def toupper (c : Nat) : Nat := if 97 ≤ c ∧ c ≤ 122 then c - 32 else c

/-- C `tolower` in the "C" locale. -/
def tolower (c : Nat) : Nat := if 65 ≤ c ∧ c ≤ 90 then c + 32 else c

/-- C `isspace` in the "C" locale: space, `\t`, `\n`, `\v`, `\f`, `\r`. -/
def isspace (c : Nat) : Bool := c == 32 || (9 ≤ c && c ≤ 13)

/-- C `isdigit`. -/
def isdigit (c : Nat) : Bool := 48 ≤ c && c ≤ 57

/-- The C string held in a buffer: the bytes before the first NUL.  This is what
`strcpy` copies and what `%s` prints. -/
def strcpy (src : List Nat) : List Nat := src.takeWhile (fun c => c != 0)

/-- C `strchr (s, c)` for `c ≠ 0`, together with the `*p++ = 0` that follows it in the
source: `none` when `c` does not occur before the terminating NUL, else the bytes before the
first `c` (the string left in the buffer once the NUL is written) and the bytes after it
(the pointer `p` after the increment). -/
def strchr : List Nat → Nat → Option (List Nat × List Nat)
  | [], _ => none
  | x :: xs, c =>
    if x = c then some ([], xs)
    else if x = 0 then none
    else match strchr xs c with
      | none => none
      | some (before, after) => some (x :: before, after)

/-- C `strcmp`: the difference of the first differing bytes, 0 when the strings are equal. -/
def strcmp : List Nat → List Nat → Int
  | [], [] => 0
  | [], b :: _ => 0 - (b : Int)
  | a :: _, [] => (a : Int)
  | a :: as, b :: bs =>
    if a ≠ b then (a : Int) - (b : Int)
    else if a = 0 then 0
    else strcmp as bs

/-- C `strncasecmp`: compares at most `n` bytes, ignoring case. -/
def strncasecmp : List Nat → List Nat → Nat → Int
  | _, _, 0 => 0
  | s1, s2, n + 1 =>
    let c1 := tolower (s1.headD 0)
    let c2 := tolower (s2.headD 0)
    if c1 ≠ c2 then (c1 : Int) - (c2 : Int)
    else if c1 = 0 then 0
    else strncasecmp s1.tail s2.tail n

/-- C `strcasecmp`: compares two strings, ignoring case. -/
def strcasecmp : List Nat → List Nat → Int
  | [], [] => 0
  | [], b :: _ => 0 - (tolower b : Int)
  | a :: _, [] => (tolower a : Int)
  | a :: as, b :: bs =>
    if tolower a ≠ tolower b then (tolower a : Int) - (tolower b : Int)
    else if a = 0 then 0
    else strcasecmp as bs

/-- C `strlen`. -/
def strlen (s : List Nat) : Nat := (strcpy s).length

/-- The digit loop of `strtol` in base 10. -/
def strtol_digits : Nat → List Nat → Nat
  | acc, [] => acc
  | acc, c :: cs => if isdigit c then strtol_digits (10 * acc + (c - 48)) cs else acc

def LONG_MAX : Int := 2 ^ 63 - 1
def LONG_MIN : Int := -(2 ^ 63)

/-- C `strtol (s, NULL, 10)` on LP64: leading white space, an optional sign, decimal digits,
the result clamped to the range of `long`. -/
def strtol (s : List Nat) : Int :=
  let clamp (x : Int) : Int := max LONG_MIN (min LONG_MAX x)
  match s.dropWhile isspace with
  | 45 :: t => clamp (-(strtol_digits 0 t : Int))
  | 43 :: t => clamp (strtol_digits 0 t : Int)
  | t => clamp (strtol_digits 0 t : Int)

/-- Conversion of a `long` to `int` (two's complement, 32 bits). -/
def long_to_int (x : Int) : Int := (x + 2 ^ 31) % 2 ^ 32 - 2 ^ 31

/-- C `atoi`, as glibc defines it: `(int) strtol (s, NULL, 10)`. -/
def atoi (s : List Nat) : Int := long_to_int (strtol s)

/-- The reading loop of `fgets`: at most `k` bytes, stopping after a line feed or at the end
of the stream. Returns the bytes read and the bytes left. -/
def fgets_loop : Nat → List Nat → List Nat × List Nat
  | 0, s => ([], s)
  | _ + 1, [] => ([], [])
  | k + 1, c :: s =>
    if c = 10 then ([c], s)
    else ((c :: (fgets_loop k s).1), (fgets_loop k s).2)

/-- C `fgets (buf, size, in)`: `none` (NULL) when the stream is at its end, else the line
stored in `buf` (at most `size - 1` bytes) and the bytes left in the stream. -/
def fgets (size : Nat) (inp : List Nat) : Option (List Nat × List Nat) :=
  match fgets_loop (size - 1) inp with
  | ([], _) => none
  | (line, rest) => some (line, rest)

/-- C `fread (buf, size, 1, in)`: one item of `size` bytes.  `none` stands for a return value
below 1: the stream ended first, and what there was of it has been consumed. -/
def fread (size : Nat) (inp : List Nat) : Option (List Nat) × List Nat :=
  if size ≤ inp.length then (some (inp.take size), inp.drop size) else (none, [])

/-! ## Data model -/

/-- The call sites of `log_exit`. -/
inductive LogMsg
  | no_request_line
  | parse_error_on_request_line_1
  | parse_error_on_request_line_2
  | parse_error_on_request_line_3
  | failed_to_read_request_header_field
  | parse_error_on_request_header_field
  | negative_content_length
  | request_body_too_long
  | failed_to_read_request_body
  | gmtime_failed
  | failed_to_open
  | failed_to_read
  deriving DecidableEq, Repr

/-- Termination of the worker process: the exit status and the message logged. -/
structure Exit where
  status : Nat
  msg : LogMsg
  deriving DecidableEq, Repr

/-- The function `log_exit`: logs the message, then `exit(1)`. -/
def log_exit (msg : LogMsg) : Exit := { status := 1, msg := msg }

/-- Result of a function that reads from `in`: a value and the bytes left in the stream, or
the `log_exit` that ended the process and the bytes that were left at that point. -/
inductive Res (α : Type)
  | ok (val : α) (rest : List Nat)
  | exit (e : Exit) (rest : List Nat)
  deriving DecidableEq, Repr

structure HTTPHeaderField where
  name : List Nat
  value : List Nat
  deriving DecidableEq, Repr

/-- The fields that `read_request_line` sets in the request. -/
structure RequestLine where
  protocol_minor_version : Int
  method : List Nat
  path : List Nat
  deriving DecidableEq, Repr

/-- The struct `HTTPRequest`; the linked list of header fields is a list, head first, and a
NULL body is `none`. -/
structure HTTPRequest where
  protocol_minor_version : Int
  method : List Nat
  path : List Nat
  header : List HTTPHeaderField
  body : Option (List Nat)
  length : Int
  deriving DecidableEq, Repr

/-! ## Request parser -/

def upcase : List Nat → List Nat
  | [] => []
  | c :: cs => if c = 0 then c :: cs else toupper c :: upcase cs

def read_request_line (inp : List Nat) : Res RequestLine :=
  match fgets LINE_BUF_SIZE inp with
  | none => .exit (log_exit .no_request_line) inp
  | some (buf, rest) =>
    match strchr buf 32 with
    | none => .exit (log_exit .parse_error_on_request_line_1) rest
    | some (m, path) =>
      let method := upcase (strcpy m)
      match strchr path 32 with
      | none => .exit (log_exit .parse_error_on_request_line_2) rest
      | some (path, p) =>
        if strncasecmp p (bytes "HTTP/1.") (strlen (bytes "HTTP/1.")) ≠ 0 then
          .exit (log_exit .parse_error_on_request_line_3) rest
        else
          .ok { protocol_minor_version := atoi (p.drop (strlen (bytes "HTTP/1.")))
                method := method
                path := strcpy path } rest

/-- One call of `read_header_field`: `none` is the NULL returned at the end of the
headers. -/
def read_header_field (inp : List Nat) : Res (Option HTTPHeaderField) :=
  match fgets LINE_BUF_SIZE inp with
  | none => .exit (log_exit .failed_to_read_request_header_field) inp
  | some (buf, rest) =>
    if buf.headD 0 = 10 ∨ strcmp buf (bytes "\r\n") = 0 then .ok none rest
    else
      match strchr buf 58 with
      | none => .exit (log_exit .parse_error_on_request_header_field) rest
      | some (name, p) =>
        let p := p.dropWhile (fun c => c == 32 || c == 9)
        .ok (some { name := strcpy name, value := strcpy p }) rest

/-- The loop `while ((h = read_header_field(in)) != NULL)` of `read_request`; `header` is
`req->header`.  Every round consumes at least one byte, so `fuel` above the length of the
stream is never used up (`read_header_fields_fuel`). -/
def read_header_fields : Nat → List Nat → List HTTPHeaderField → Res (List HTTPHeaderField)
  | 0, inp, _ => .exit (log_exit .failed_to_read_request_header_field) inp
  | fuel + 1, inp, header =>
    match read_header_field inp with
    | .exit e rest => .exit e rest
    | .ok none rest => .ok header rest
    | .ok (some h) rest => read_header_fields fuel rest (h :: header)

/-- The header loop of `read_request`, entered with `req->header = NULL`: the header list
(last field read first) and the stream after the line that ends the header block. -/
def read_headers (inp : List Nat) : Res (List HTTPHeaderField) :=
  read_header_fields (inp.length + 1) inp []

def lookup_header_field_value (header : List HTTPHeaderField) (name : List Nat) :
    Option (List Nat) :=
  match header with
  | [] => none
  | h :: next =>
    if strcasecmp h.name name = 0 then some h.value
    else lookup_header_field_value next name

def content_length (header : List HTTPHeaderField) : Except Exit Int :=
  match lookup_header_field_value header (bytes "Content-Length") with
  | none => .ok 0
  | some val =>
    let len := atoi val
    if len < 0 then .error (log_exit .negative_content_length) else .ok len

def read_request (inp : List Nat) : Res HTTPRequest :=
  match read_request_line inp with
  | .exit e rest => .exit e rest
  | .ok rl rest =>
    match read_headers rest with
    | .exit e rest => .exit e rest
    | .ok header rest =>
      match content_length header with
      | .error e => .exit e rest
      | .ok length =>
        if length ≠ 0 then
          if length > MAX_REQUEST_BODY_LENGTH then
            .exit (log_exit .request_body_too_long) rest
          else
            match fread length.toNat rest with
            | (none, rest) => .exit (log_exit .failed_to_read_request_body) rest
            | (some body, rest) =>
              .ok { protocol_minor_version := rl.protocol_minor_version
                    method := rl.method
                    path := rl.path
                    header := header
                    body := some body
                    length := length } rest
        else
          .ok { protocol_minor_version := rl.protocol_minor_version
                method := rl.method
                path := rl.path
                header := header
                body := none
                length := length } rest

/-! ## File system, clock and output stream -/

/-- The file types that `st_mode & S_IFMT` tells apart. -/
inductive FileType
  | S_IFREG | S_IFDIR | S_IFLNK | S_IFCHR | S_IFBLK | S_IFIFO | S_IFSOCK
  deriving DecidableEq, Repr

/-- The fields of `struct stat` that the server reads. -/
structure Stat where
  st_mode : FileType
  st_size : Nat
  deriving DecidableEq, Repr

def S_ISREG (m : FileType) : Bool := m == FileType.S_IFREG

/-- What `read(2)` delivers on a descriptor opened with `O_RDONLY`: the bytes, and whether
`read(2)` then fails (returns -1) instead of reporting the end of the file. -/
structure FileData where
  content : List Nat
  error : Bool
  deriving DecidableEq, Repr

/-- The state of the file system as the server observes it: the result of `lstat(2)` and of
`open(2)` with `O_RDONLY` for every path.  `none` is a return value below 0. -/
structure FileSystem where
  lstat : List Nat → Option Stat
  open_rdonly : List Nat → Option FileData

/-- The outcome of `time(2)`, `gmtime(3)` and `strftime(3)` in
`output_common_header_fileds`: the C string that `strftime` leaves in `buf`, or `none` when
`gmtime` returns NULL. -/
abbrev Clock := Option (List Nat)

/-- State of `FILE *out` when a response function is left: the bytes written so far and, when
the function ended in `log_exit`, that exit (the bytes written are flushed by `exit`). -/
structure Outcome where
  out : List Nat
  exit : Option Exit
  deriving DecidableEq, Repr

/-- Conversion `%d` / `%ld` of `fprintf`. -/
def fmt_d (n : Int) : List Nat :=
  if n < 0 then 45 :: (Nat.toDigits 10 n.natAbs).map Char.toNat
  else (Nat.toDigits 10 n.natAbs).map Char.toNat

structure FileInfo where
  path : List Nat
  size : Nat
  ok : Bool
  deriving DecidableEq, Repr

/-! ## File resolver -/

def build_fspath (docroot urlpath : List Nat) : List Nat :=
  strcpy docroot ++ strcpy urlpath

def get_fileinfo (fs : FileSystem) (docroot urlpath : List Nat) : FileInfo :=
  let path := build_fspath docroot urlpath
  match fs.lstat path with
  | none => { path := path, size := 0, ok := false }
  | some st =>
    if !S_ISREG st.st_mode then { path := path, size := 0, ok := false }
    else { path := path, size := st.st_size, ok := true }

/-! ## Response writer and dispatcher -/

def output_common_header_fileds (clock : Clock) (out : List Nat) (status : List Nat) :
    Outcome :=
  match clock with
  | none => { out := out, exit := some (log_exit .gmtime_failed) }
  | some buf =>
    { out := out ++ (bytes "HTTP/1." ++ fmt_d 0 ++ bytes " " ++ strcpy status ++ bytes "\r\n")
                 ++ (bytes "Date: " ++ buf ++ bytes "\r\n")
                 ++ (bytes "Server: " ++ bytes "super server" ++ bytes "/" ++ bytes "2.3"
                      ++ bytes "\r\n")
                 ++ bytes "Connection: close\r\n"
      exit := none }

def not_found (clock : Clock) (out : List Nat) : Outcome :=
  match output_common_header_fileds clock out (bytes "404 Not Found") with
  | { out := out, exit := some e } => { out := out, exit := some e }
  | { out := out, exit := none } =>
    { out := out ++ (bytes "Content-Type: " ++ bytes "text/plain" ++ bytes "\r\n")
                 ++ bytes "\r\n" ++ bytes "not_found\r\n"
      exit := none }

def method_not_allowed (clock : Clock) (out : List Nat) : Outcome :=
  match output_common_header_fileds clock out (bytes "405 Method Not Allowed") with
  | { out := out, exit := some e } => { out := out, exit := some e }
  | { out := out, exit := none } =>
    { out := out ++ (bytes "Content-Type: " ++ bytes "text/plain" ++ bytes "\r\n")
                 ++ bytes "\r\n" ++ bytes "method_not_allowed\r\n"
      exit := none }

def not_implemented (clock : Clock) (out : List Nat) : Outcome :=
  match output_common_header_fileds clock out (bytes "501 Not Implemented") with
  | { out := out, exit := some e } => { out := out, exit := some e }
  | { out := out, exit := none } =>
    { out := out ++ (bytes "Content-Type: " ++ bytes "text/plain" ++ bytes "\r\n")
                 ++ bytes "\r\n" ++ bytes "not_implemented\r\n"
      exit := none }

/-- The loop `for (;;)` of `do_file_respond`: `read(2)` into a block of `BLOCK_BUF_SIZE`
bytes, `fwrite` of the block, until `read` returns 0 (or -1: `log_exit`).  `remaining` is
what the descriptor has not delivered yet. -/
def copy_loop (remaining : List Nat) (error : Bool) (out : List Nat) : Outcome :=
  match remaining with
  | [] =>
    if error then { out := out, exit := some (log_exit .failed_to_read) }
    else { out := out, exit := none }
  | c :: cs =>
    copy_loop ((c :: cs).drop BLOCK_BUF_SIZE) error (out ++ (c :: cs).take BLOCK_BUF_SIZE)
termination_by remaining.length
decreasing_by
  simp only [List.length_drop, List.length_cons, BLOCK_BUF_SIZE]
  omega

def do_file_respond (req : HTTPRequest) (out : List Nat) (docroot : List Nat)
    (fs : FileSystem) (clock : Clock) : Outcome :=
  let info := get_fileinfo fs docroot req.path
  if !info.ok then not_found clock out
  else
    match output_common_header_fileds clock out (bytes "200 OK") with
    | { out := out, exit := some e } => { out := out, exit := some e }
    | { out := out, exit := none } =>
      let out := out ++ (bytes "Content-Length: " ++ fmt_d info.size ++ bytes "\r\n")
                     ++ (bytes "Content-Type: " ++ bytes "text/plain" ++ bytes "\r\n")
                     ++ bytes "\r\n"
      if strcmp req.method (bytes "HEAD") ≠ 0 then
        match fs.open_rdonly info.path with
        | none => { out := out, exit := some (log_exit .failed_to_open) }
        | some fd => copy_loop fd.content fd.error out
      else { out := out, exit := none }

def respond_to (req : HTTPRequest) (out : List Nat) (docroot : List Nat)
    (fs : FileSystem) (clock : Clock) : Outcome :=
  if strcmp req.method (bytes "GET") = 0 then do_file_respond req out docroot fs clock
  else if strcmp req.method (bytes "HEAD") = 0 then do_file_respond req out docroot fs clock
  else if strcmp req.method (bytes "POST") = 0 then method_not_allowed clock out
  else not_implemented clock out

/-- The function `service`: one request is read from `in` and answered on `out`;
`free_request` has no effect on the streams. -/
def service (inp : List Nat) (docroot : List Nat) (fs : FileSystem) (clock : Clock) : Outcome :=
  match read_request inp with
  | .exit e _ => { out := [], exit := some e }
  | .ok req _ => respond_to req [] docroot fs clock

/-! ## The stdin/stdout server of `chap16/server.c`

The functions of `src/chap16/server.c`, embedded from that file.  Its structs
(`HTTPHeaderField`, `HTTPRequest`, `FileInfo`) are declared as in `chap17/server2.c` and share
the types above.  Its `log_exit` writes the message to `stderr` and calls `exit(1)`; `in` is
`stdin` and `out` is `stdout`. -/

namespace Chap16

def MAX_REQUEST_BODY_LENGTH : Int := 1024 * 1024
def LINE_BUF_SIZE : Nat := 4096
def BLOCK_BUF_SIZE : Nat := 4 * 1024 * 1024

/-- The function `log_exit` of `chap16/server.c`: message to `stderr`, then `exit(1)`. -/
def log_exit (msg : LogMsg) : Exit := { status := 1, msg := msg }

def upcase : List Nat → List Nat
  | [] => []
  | c :: cs => if c = 0 then c :: cs else toupper c :: upcase cs

def read_request_line (inp : List Nat) : Res RequestLine :=
  match fgets LINE_BUF_SIZE inp with
  | none => .exit (log_exit .no_request_line) inp
  | some (buf, rest) =>
    match strchr buf 32 with
    | none => .exit (log_exit .parse_error_on_request_line_1) rest
    | some (m, path) =>
      let method := upcase (strcpy m)
      match strchr path 32 with
      | none => .exit (log_exit .parse_error_on_request_line_2) rest
      | some (path, p) =>
        if strncasecmp p (bytes "HTTP/1.") (strlen (bytes "HTTP/1.")) ≠ 0 then
          .exit (log_exit .parse_error_on_request_line_3) rest
        else
          .ok { protocol_minor_version := atoi (p.drop (strlen (bytes "HTTP/1.")))
                method := method
                path := strcpy path } rest

/-- One call of `read_header_field`: `none` is the NULL returned at the end of the
headers. -/
def read_header_field (inp : List Nat) : Res (Option HTTPHeaderField) :=
  match fgets LINE_BUF_SIZE inp with
  | none => .exit (log_exit .failed_to_read_request_header_field) inp
  | some (buf, rest) =>
    if buf.headD 0 = 10 ∨ strcmp buf (bytes "\r\n") = 0 then .ok none rest
    else
      match strchr buf 58 with
      | none => .exit (log_exit .parse_error_on_request_header_field) rest
      | some (name, p) =>
        let p := p.dropWhile (fun c => c == 32 || c == 9)
        .ok (some { name := strcpy name, value := strcpy p }) rest

/-- The loop `while ((h = read_header_field(in)) != NULL)` of `read_request`; `header` is
`req->header`, and `fuel` bounds the number of rounds as in the daemon server. -/
def read_header_fields : Nat → List Nat → List HTTPHeaderField → Res (List HTTPHeaderField)
  | 0, inp, _ => .exit (log_exit .failed_to_read_request_header_field) inp
  | fuel + 1, inp, header =>
    match read_header_field inp with
    | .exit e rest => .exit e rest
    | .ok none rest => .ok header rest
    | .ok (some h) rest => read_header_fields fuel rest (h :: header)

/-- The header loop of `read_request`, entered with `req->header = NULL`: the header list
(last field read first) and the stream after the line that ends the header block. -/
def read_headers (inp : List Nat) : Res (List HTTPHeaderField) :=
  read_header_fields (inp.length + 1) inp []

def lookup_header_field_value (header : List HTTPHeaderField) (name : List Nat) :
    Option (List Nat) :=
  match header with
  | [] => none
  | h :: next =>
    if strcasecmp h.name name = 0 then some h.value
    else lookup_header_field_value next name

def content_length (header : List HTTPHeaderField) : Except Exit Int :=
  match lookup_header_field_value header (bytes "Content-Length") with
  | none => .ok 0
  | some val =>
    let len := atoi val
    if len < 0 then .error (log_exit .negative_content_length) else .ok len

def read_request (inp : List Nat) : Res HTTPRequest :=
  match read_request_line inp with
  | .exit e rest => .exit e rest
  | .ok rl rest =>
    match read_headers rest with
    | .exit e rest => .exit e rest
    | .ok header rest =>
      match content_length header with
      | .error e => .exit e rest
      | .ok length =>
        if length ≠ 0 then
          if length > MAX_REQUEST_BODY_LENGTH then
            .exit (log_exit .request_body_too_long) rest
          else
            match fread length.toNat rest with
            | (none, rest) => .exit (log_exit .failed_to_read_request_body) rest
            | (some body, rest) =>
              .ok { protocol_minor_version := rl.protocol_minor_version
                    method := rl.method
                    path := rl.path
                    header := header
                    body := some body
                    length := length } rest
        else
          .ok { protocol_minor_version := rl.protocol_minor_version
                method := rl.method
                path := rl.path
                header := header
                body := none
                length := length } rest

def build_fspath (docroot urlpath : List Nat) : List Nat :=
  strcpy docroot ++ strcpy urlpath

def get_fileinfo (fs : FileSystem) (docroot urlpath : List Nat) : FileInfo :=
  let path := build_fspath docroot urlpath
  match fs.lstat path with
  | none => { path := path, size := 0, ok := false }
  | some st =>
    if !S_ISREG st.st_mode then { path := path, size := 0, ok := false }
    else { path := path, size := st.st_size, ok := true }

def output_common_header_fileds (clock : Clock) (out : List Nat) (status : List Nat) :
    Outcome :=
  match clock with
  | none => { out := out, exit := some (log_exit .gmtime_failed) }
  | some buf =>
    { out := out ++ (bytes "HTTP/1." ++ fmt_d 0 ++ bytes " " ++ strcpy status ++ bytes "\r\n")
                 ++ (bytes "Date: " ++ buf ++ bytes "\r\n")
                 ++ (bytes "Server: " ++ bytes "super server" ++ bytes "/" ++ bytes "2.3"
                      ++ bytes "\r\n")
                 ++ bytes "Connection: close\r\n"
      exit := none }

def not_found (clock : Clock) (out : List Nat) : Outcome :=
  match output_common_header_fileds clock out (bytes "404 Not Found") with
  | { out := out, exit := some e } => { out := out, exit := some e }
  | { out := out, exit := none } =>
    { out := out ++ (bytes "Content-Type: " ++ bytes "text/plain" ++ bytes "\r\n")
                 ++ bytes "\r\n" ++ bytes "not_found\r\n"
      exit := none }

def method_not_allowed (clock : Clock) (out : List Nat) : Outcome :=
  match output_common_header_fileds clock out (bytes "405 Method Not Allowed") with
  | { out := out, exit := some e } => { out := out, exit := some e }
  | { out := out, exit := none } =>
    { out := out ++ (bytes "Content-Type: " ++ bytes "text/plain" ++ bytes "\r\n")
                 ++ bytes "\r\n" ++ bytes "method_not_allowed\r\n"
      exit := none }

def not_implemented (clock : Clock) (out : List Nat) : Outcome :=
  match output_common_header_fileds clock out (bytes "501 Not Implemented") with
  | { out := out, exit := some e } => { out := out, exit := some e }
  | { out := out, exit := none } =>
    { out := out ++ (bytes "Content-Type: " ++ bytes "text/plain" ++ bytes "\r\n")
                 ++ bytes "\r\n" ++ bytes "not_implemented\r\n"
      exit := none }

/-- The loop `for (;;)` of `do_file_respond`: `read(2)` into a block of `BLOCK_BUF_SIZE`
bytes, `fwrite` of the block, until `read` returns 0 (or -1: `log_exit`).  `remaining` is
what the descriptor has not delivered yet. -/
def copy_loop (remaining : List Nat) (error : Bool) (out : List Nat) : Outcome :=
  match remaining with
  | [] =>
    if error then { out := out, exit := some (log_exit .failed_to_read) }
    else { out := out, exit := none }
  | c :: cs =>
    copy_loop ((c :: cs).drop BLOCK_BUF_SIZE) error (out ++ (c :: cs).take BLOCK_BUF_SIZE)
termination_by remaining.length
decreasing_by
  simp only [List.length_drop, List.length_cons, BLOCK_BUF_SIZE]
  omega

def do_file_respond (req : HTTPRequest) (out : List Nat) (docroot : List Nat)
    (fs : FileSystem) (clock : Clock) : Outcome :=
  let info := get_fileinfo fs docroot req.path
  if !info.ok then not_found clock out
  else
    match output_common_header_fileds clock out (bytes "200 OK") with
    | { out := out, exit := some e } => { out := out, exit := some e }
    | { out := out, exit := none } =>
      let out := out ++ (bytes "Content-Length: " ++ fmt_d info.size ++ bytes "\r\n")
                     ++ (bytes "Content-Type: " ++ bytes "text/plain" ++ bytes "\r\n")
                     ++ bytes "\r\n"
      if strcmp req.method (bytes "HEAD") ≠ 0 then
        match fs.open_rdonly info.path with
        | none => { out := out, exit := some (log_exit .failed_to_open) }
        | some fd => copy_loop fd.content fd.error out
      else { out := out, exit := none }

def respond_to (req : HTTPRequest) (out : List Nat) (docroot : List Nat)
    (fs : FileSystem) (clock : Clock) : Outcome :=
  if strcmp req.method (bytes "GET") = 0 then do_file_respond req out docroot fs clock
  else if strcmp req.method (bytes "HEAD") = 0 then do_file_respond req out docroot fs clock
  else if strcmp req.method (bytes "POST") = 0 then method_not_allowed clock out
  else not_implemented clock out

/-- The function `service`: one request is read from `in` and answered on `out`;
`free_request` has no effect on the streams. -/
def service (inp : List Nat) (docroot : List Nat) (fs : FileSystem) (clock : Clock) : Outcome :=
  match read_request inp with
  | .exit e _ => { out := [], exit := some e }
  | .ok req _ => respond_to req [] docroot fs clock

end Chap16

/-! ## Specification-side vocabulary -/

/-- The number that a string of decimal digits denotes, most significant digit first. -/
def decimal_value (ds : List Nat) : Nat := ds.foldl (fun acc d => 10 * acc + d) 0

/-- The ASCII text of a string of decimal digits. -/
def decimal_text (ds : List Nat) : List Nat := ds.map (fun d => d + 48)

/-- The request line `M P HTTP/1.<n>`, without its line break; `ds` are the decimal digits
of `n`. -/
def request_line (M P : List Nat) (ds : List Nat) : List Nat :=
  M ++ bytes " " ++ P ++ bytes " " ++ bytes "HTTP/1." ++ decimal_text ds

/-- The header lines that every response carries after its status line. -/
def common_headers (date : List Nat) : List Nat :=
  bytes "Date: " ++ date ++ bytes "\r\n" ++ bytes "Server: super server/2.3\r\n"
    ++ bytes "Connection: close\r\n"

/-- In the file-system state `fs`, `path` names a regular file with contents `c`: `lstat`
reports a regular file of `c.length` bytes, and the file can be opened and read to its end,
which yields `c`. -/
def regular_file (fs : FileSystem) (path c : List Nat) : Prop :=
  fs.lstat path = some { st_mode := FileType.S_IFREG, st_size := c.length }
    ∧ fs.open_rdonly path = some { content := c, error := false }

instance (fs : FileSystem) (path c : List Nat) : Decidable (regular_file fs path c) :=
  inferInstanceAs (Decidable (_ ∧ _))

/-- A file-system state that holds the regular file `/www/a.txt` with contents `hello`, the
directory `/www`, and nothing else. -/
def example_fs : FileSystem where
  lstat := fun p =>
    if p = bytes "/www/a.txt" then some { st_mode := FileType.S_IFREG, st_size := 5 }
    else if p = bytes "/www" ∨ p = bytes "/www/" then
      some { st_mode := FileType.S_IFDIR, st_size := 4096 }
    else none
  open_rdonly := fun p =>
    if p = bytes "/www/a.txt" then some { content := bytes "hello", error := false }
    else none

/-- A request with the given method and path, HTTP/1.0, no header and no body. -/
def example_request (method path : List Nat) : HTTPRequest :=
  { protocol_minor_version := 0, method := method, path := path, header := [], body := none
    length := 0 }

/-- A date as `strftime` renders it with the server's format. -/
def example_date : List Nat := bytes "Thu, 01 Jan 1970 00:00:00 GMT"

/-- The status line and header block of the response for a regular file of `size` bytes, up
to and including the blank line. -/
def file_response_head (date : List Nat) (size : Nat) : List Nat :=
  bytes "HTTP/1.0 200 OK\r\n" ++ common_headers date
    ++ (bytes "Content-Length: " ++ fmt_d size ++ bytes "\r\n")
    ++ bytes "Content-Type: text/plain\r\n" ++ bytes "\r\n"

/-- The lines of a response on the wire: its bytes split at every line feed. -/
def response_lines (out : List Nat) : List (List Nat) := out.splitOn 10

/-- The line is a `Content-Length` header line: it begins with `Content-Length:`, compared
without regard to case. -/
def is_content_length_line (l : List Nat) : Prop :=
  (l.take 15).map tolower = bytes "content-length:"

instance (l : List Nat) : Decidable (is_content_length_line l) :=
  inferInstanceAs (Decidable (_ = _))

/-- The text `t` begins with the prefix `HTTP/1.`, compared without regard to case. -/
def begins_with_http1 (t : List Nat) : Prop := (t.take 7).map tolower = bytes "http/1."

instance (t : List Nat) : Decidable (begins_with_http1 t) :=
  inferInstanceAs (Decidable (_ = _))

/-- Filling of the long request line below: 4081 letters `a`. -/
def padding : List Nat := List.replicate 4081 97

/-- A request line of 4102 bytes: `GET /aaa...a HTTP/1.0Host: x`, whose first 4095 bytes are
`GET /aaa...a HTTP/1.0`. -/
def long_request_line : List Nat :=
  bytes "GET" ++ 32 :: ((47 :: padding) ++ 32 :: bytes "HTTP/1.0") ++ bytes "Host: x"

/-- The first 4095 bytes of `long_request_line`: `GET /aaa...a HTTP/1.0`. -/
def long_line_head : List Nat :=
  bytes "GET" ++ 32 :: ((47 :: padding) ++ 32 :: bytes "HTTP/1.0")

/-- The name of a header line: its bytes before the first colon. -/
def header_name (l : List Nat) : List Nat := l.takeWhile (fun c => c != 58)

/-- The value of a header line: its bytes after the first colon, without the spaces and
tabs that follow the colon directly (the line terminator stays). -/
def header_value (l : List Nat) : List Nat :=
  ((l.dropWhile (fun c => c != 58)).drop 1).dropWhile (fun c => c == 32 || c == 9)

/-- The header field that a header line of the wire declares, `l` being the line without
its line feed: the name is the text before the first colon, the value the text after it
without the spaces and tabs that follow the colon directly, up to the line feed and with
it. -/
def header_field_of_line (l : List Nat) : HTTPHeaderField :=
  { name := header_name (l ++ [10]), value := header_value (l ++ [10]) }

/-- The bytes of a header block on the wire: each of its lines followed by a line feed. -/
def header_block : List (List Nat) → List Nat
  | [] => []
  | l :: ls => l ++ 10 :: header_block ls

/-- A header line of 4113 bytes before its line feed: `X-Long-Lines: aaa...a` with 4081
letters `a`, which is 4095 bytes, and then `Content-Length: 3` and a CR. -/
def long_header_line : List Nat :=
  bytes "X-Long-Lines: " ++ padding ++ bytes "Content-Length: 3\r"

/-- A request with the two header lines `Content-Length: 5` and `long_header_line`, a blank
line and the bytes `hello`. -/
def long_header_request : List Nat :=
  bytes "GET / HTTP/1.0\r\n"
    ++ (header_block [bytes "Content-Length: 5\r", long_header_line] ++ bytes "\r\n"
      ++ bytes "hello")

/-- Two header names are the same without regard to case. -/
def same_name (a b : List Nat) : Bool := a.map tolower == b.map tolower

/-! ## Lemmas on the C-library functions -/

theorem bytes_space : bytes " " = [32] := by decide

theorem bytes_http1 : bytes "HTTP/1." = [72, 84, 84, 80, 47, 49, 46] := by decide

theorem strlen_http1 : strlen (bytes "HTTP/1.") = 7 := by decide

theorem strcpy_of_no_nul (l : List Nat) (h : ∀ c ∈ l, c ≠ 0) : strcpy l = l := by
  unfold strcpy
  rw [List.takeWhile_eq_self_iff]
  intro c hc
  simpa using h c hc

theorem strchr_append (a b : List Nat) (c : Nat) (hc : ∀ x ∈ a, x ≠ c)
    (h0 : ∀ x ∈ a, x ≠ 0) : strchr (a ++ c :: b) c = some (a, b) := by
  induction a with
  | nil => simp [strchr]
  | cons x xs ih =>
    have hx : x ≠ c := hc x (List.mem_cons_self _ _)
    have hx0 : x ≠ 0 := h0 x (List.mem_cons_self _ _)
    have ih1 := ih (fun y hy => hc y (List.mem_cons_of_mem _ hy))
      (fun y hy => h0 y (List.mem_cons_of_mem _ hy))
    simp [strchr, hx, hx0, ih1]

theorem upcase_of_no_nul (l : List Nat) (h : ∀ c ∈ l, c ≠ 0) : upcase l = l.map toupper := by
  induction l with
  | nil => simp [upcase]
  | cons x xs ih =>
    have hx0 : x ≠ 0 := h x (List.mem_cons_self _ _)
    simp [upcase, hx0, ih (fun y hy => h y (List.mem_cons_of_mem _ hy))]

theorem fgets_loop_line (k : Nat) (l rest : List Nat) (hl : ∀ c ∈ l, c ≠ 10)
    (hk : l.length < k) : fgets_loop k (l ++ 10 :: rest) = (l ++ [10], rest) := by
  induction l generalizing k with
  | nil =>
    cases k with
    | zero => simp at hk
    | succ k => simp [fgets_loop]
  | cons x xs ih =>
    cases k with
    | zero => simp at hk
    | succ k =>
      have hx : x ≠ 10 := hl x (List.mem_cons_self _ _)
      have hk1 : xs.length < k := by simpa using hk
      simp [fgets_loop, hx, ih k (fun y hy => hl y (List.mem_cons_of_mem _ hy)) hk1]

theorem fgets_line (l rest : List Nat) (hl : ∀ c ∈ l, c ≠ 10)
    (hk : l.length + 1 ≤ LINE_BUF_SIZE - 1) :
    fgets LINE_BUF_SIZE (l ++ 10 :: rest) = some (l ++ [10], rest) := by
  unfold fgets
  rw [fgets_loop_line _ l rest hl (by omega)]
  cases l <;> simp

theorem strncasecmp_http1 (t : List Nat) :
    strncasecmp (72 :: 84 :: 84 :: 80 :: 47 :: 49 :: 46 :: t) [72, 84, 84, 80, 47, 49, 46] 7
      = 0 := by
  simp [strncasecmp, tolower]

theorem strtol_digits_text (ds : List Nat) (hds : ∀ d ∈ ds, d < 10) (acc : Nat)
    (t : List Nat) (ht : t.head?.all (fun c => !isdigit c) = true) :
    strtol_digits acc (decimal_text ds ++ t) = ds.foldl (fun a d => 10 * a + d) acc := by
  induction ds generalizing acc with
  | nil =>
    cases t with
    | nil => simp [decimal_text, strtol_digits]
    | cons c cs =>
      have hc : isdigit c = false := by simpa using ht
      simp [decimal_text, strtol_digits, hc]
  | cons d ds ih =>
    have hd : d < 10 := hds d (List.mem_cons_self _ _)
    have hdig : isdigit (d + 48) = true := by simp [isdigit]; omega
    have ih1 := ih (fun y hy => hds y (List.mem_cons_of_mem _ hy)) (10 * acc + d)
    simp only [decimal_text, List.map_cons, List.cons_append, strtol_digits, hdig, if_true,
      List.foldl_cons, Nat.add_sub_cancel] at ih1 ⊢
    exact ih1

theorem atoi_decimal_text (ds : List Nat) (hds : ∀ d ∈ ds, d < 10)
    (hn : decimal_value ds ≤ 2147483647) (eol : List Nat)
    (heol : eol = [10] ∨ eol = [13, 10]) :
    atoi (decimal_text ds ++ eol) = (decimal_value ds : Int) := by
  have hval : (strtol_digits 0 (decimal_text ds ++ eol) : Int) = (decimal_value ds : Int) := by
    rw [strtol_digits_text ds hds 0 eol (by rcases heol with h | h <;> subst h <;> decide)]
    rfl
  have hclamp : strtol (decimal_text ds ++ eol) = (decimal_value ds : Int) := by
    cases ds with
    | nil =>
      rcases heol with h | h <;> subst h <;> decide
    | cons d ds =>
      have hd : d < 10 := hds d (List.mem_cons_self _ _)
      have hsp : isspace (d + 48) = false := by simp [isspace]
      have h45 : d + 48 ≠ 45 := by omega
      have h43 : d + 48 ≠ 43 := by omega
      unfold strtol
      simp only [decimal_text, List.map_cons, List.cons_append, List.dropWhile_cons, hsp]
      simp only [decimal_text, List.map_cons, List.cons_append] at hval
      split
      · rename_i heq; simp at heq
      · rename_i heq; simp at heq
      · simp only [Bool.false_eq_true, if_false]
        rw [hval]
        simp only [LONG_MAX, LONG_MIN]
        omega
  unfold atoi long_to_int
  rw [hclamp]
  omega

/-! ## The request line -/

/-- C1 (as amended): for every request line `M P HTTP/1.<n>` followed by a line break (`\n`
or `\r\n`), where M and P contain no space, no NUL and no line feed, the digits of `n`
denote a number that an `int` holds, and the line with its line break fits the line buffer
(at most `LINE_BUF_SIZE - 1` bytes), `read_request_line` succeeds with method = M with every
letter upper-cased, path = P verbatim and protocol minor version = n, and leaves the stream
right after the line break. -/
theorem read_request_line_well_formed (M P : List Nat) (ds : List Nat) (eol rest : List Nat)
    (hM : ∀ c ∈ M, c ≠ 32 ∧ c ≠ 0 ∧ c ≠ 10) (hP : ∀ c ∈ P, c ≠ 32 ∧ c ≠ 0 ∧ c ≠ 10)
    (hds : ∀ d ∈ ds, d < 10) (hn : decimal_value ds ≤ 2147483647)
    (heol : eol = bytes "\n" ∨ eol = bytes "\r\n")
    (hfit : (request_line M P ds ++ eol).length ≤ LINE_BUF_SIZE - 1) :
    read_request_line (request_line M P ds ++ eol ++ rest)
      = Res.ok { protocol_minor_version := (decimal_value ds : Int)
                 method := M.map toupper
                 path := P } rest := by
  obtain ⟨e, he, heol'⟩ : ∃ e : List Nat, eol = e ++ [10] ∧ (e = [] ∨ e = [13]) := by
    rcases heol with h | h
    · exact ⟨[], by rw [h]; decide, Or.inl rfl⟩
    · exact ⟨[13], by rw [h]; decide, Or.inr rfl⟩
  have he10 : ∀ c ∈ e, c ≠ 10 := by
    rcases heol' with h | h <;> subst h <;> simp
  have hdec10 : ∀ c ∈ decimal_text ds, c ≠ 10 := by
    intro c hc
    simp only [decimal_text, List.mem_map] at hc
    obtain ⟨d, _, rfl⟩ := hc
    show d + 48 ≠ 10
    omega
  have hline10 : ∀ c ∈ request_line M P ds ++ e, c ≠ 10 := by
    intro c hc
    simp only [request_line, bytes_space, bytes_http1, List.mem_append, List.mem_cons,
      List.mem_singleton, List.not_mem_nil, or_false] at hc
    rcases hc with (((((h | h) | h) | h) | h) | h) | h <;>
      first
        | exact (hM c h).2.2
        | exact (hP c h).2.2
        | exact hdec10 c h
        | exact he10 c h
        | omega
  have hlen : (request_line M P ds ++ e).length + 1 ≤ LINE_BUF_SIZE - 1 := by
    have := hfit
    rw [he] at this
    simpa [List.length_append, Nat.add_assoc] using this
  have hinp : request_line M P ds ++ eol ++ rest = (request_line M P ds ++ e) ++ 10 :: rest := by
    rw [he]; simp [List.append_assoc]
  have hatoi : atoi (decimal_text ds ++ (e ++ [10])) = (decimal_value ds : Int) := by
    apply atoi_decimal_text ds hds hn
    rcases heol' with h | h <;> subst h <;> simp
  have hbuf : request_line M P ds ++ e ++ [10]
      = M ++ 32 :: (P ++ 32 :: 72 :: 84 :: 84 :: 80 :: 47 :: 49 :: 46 ::
          (decimal_text ds ++ (e ++ [10]))) := by
    simp [request_line, bytes_space, bytes_http1, List.append_assoc]
  unfold read_request_line
  rw [hinp, fgets_line _ rest hline10 hlen]
  simp only [hbuf]
  rw [strchr_append M _ 32 (fun x hx => (hM x hx).1) (fun x hx => (hM x hx).2.1)]
  simp only []
  rw [strchr_append P _ 32 (fun x hx => (hP x hx).1) (fun x hx => (hP x hx).2.1)]
  simp only [strlen_http1]
  simp only [bytes_http1, strncasecmp_http1, ne_eq, not_true_eq_false, if_false,
    List.drop_succ_cons, List.drop_zero, hatoi]
  rw [strcpy_of_no_nul M (fun x hx => (hM x hx).2.1),
    strcpy_of_no_nul P (fun x hx => (hP x hx).2.1),
    upcase_of_no_nul M (fun x hx => (hM x hx).2.1)]

/-- C1, witness: `get /index.html HTTP/1.1` followed by CR LF. -/
theorem read_request_line_well_formed_witness :
    read_request_line (request_line (bytes "get") (bytes "/index.html") [1] ++ bytes "\r\n"
        ++ bytes "Host: x\r\n\r\n")
      = Res.ok { protocol_minor_version := (decimal_value [1] : Int)
                 method := (bytes "get").map toupper
                 path := bytes "/index.html" } (bytes "Host: x\r\n\r\n") :=
  read_request_line_well_formed (bytes "get") (bytes "/index.html") [1] (bytes "\r\n")
    (bytes "Host: x\r\n\r\n") (by decide) (by decide) (by decide) (by decide)
    (Or.inr rfl) (by decide)

/-- C1, counterexample: a method token with a NUL byte contains no space and its line fits
the buffer, yet `read_request_line` ends in `log_exit`; and for `HTTP/1.4294967296` the
stored minor version is 0. -/
theorem read_request_line_counterexample :
    ((∀ c ∈ [71, 0, 84], c ≠ 32) ∧ (∀ c ∈ bytes "/", c ≠ 32)
      ∧ (request_line [71, 0, 84] (bytes "/") [0] ++ bytes "\n").length ≤ LINE_BUF_SIZE - 1
      ∧ read_request_line (request_line [71, 0, 84] (bytes "/") [0] ++ bytes "\n")
          = Res.exit (log_exit LogMsg.parse_error_on_request_line_1) [])
    ∧ (decimal_value [4, 2, 9, 4, 9, 6, 7, 2, 9, 6] = 4294967296
      ∧ read_request_line
          (request_line (bytes "GET") (bytes "/") [4, 2, 9, 4, 9, 6, 7, 2, 9, 6] ++ bytes "\n")
          = Res.ok { protocol_minor_version := 0, method := bytes "GET", path := bytes "/" }
              []) := by
  decide
/-! ## Parsed requests hold C strings -/

theorem strcpy_no_nul (l : List Nat) : ∀ c ∈ strcpy l, c ≠ 0 := by
  intro c hc
  have := List.mem_takeWhile_imp hc
  simpa using this

theorem toupper_ne_zero (c : Nat) (hc : c ≠ 0) : toupper c ≠ 0 := by
  unfold toupper
  split <;> omega

theorem upcase_strcpy_no_nul (l : List Nat) : ∀ c ∈ upcase (strcpy l), c ≠ 0 := by
  rw [upcase_of_no_nul _ (strcpy_no_nul l)]
  intro c hc
  simp only [List.mem_map] at hc
  obtain ⟨x, hx, rfl⟩ := hc
  exact toupper_ne_zero x (strcpy_no_nul l x hx)

theorem strcmp_eq_zero_iff (a b : List Nat) (ha : ∀ c ∈ a, c ≠ 0) (hb : ∀ c ∈ b, c ≠ 0) :
    strcmp a b = 0 ↔ a = b := by
  induction a generalizing b with
  | nil =>
    cases b with
    | nil => simp [strcmp]
    | cons y ys =>
      have hy : y ≠ 0 := hb y (List.mem_cons_self _ _)
      simp [strcmp]; omega
  | cons x xs ih =>
    have hx : x ≠ 0 := ha x (List.mem_cons_self _ _)
    cases b with
    | nil => simp [strcmp]; omega
    | cons y ys =>
      have ih1 := ih ys (fun c hc => ha c (List.mem_cons_of_mem _ hc))
        (fun c hc => hb c (List.mem_cons_of_mem _ hc))
      by_cases hxy : x = y
      · subst hxy
        simp [strcmp, hx, ih1]
      · have : (x : Int) - (y : Int) ≠ 0 := by omega
        simp [strcmp, hxy, this]

theorem read_request_line_method_no_nul (inp : List Nat) (rl : RequestLine) (rest : List Nat)
    (h : read_request_line inp = Res.ok rl rest) : ∀ c ∈ rl.method, c ≠ 0 := by
  unfold read_request_line at h
  split at h
  · cases h
  · split at h
    · cases h
    · split at h
      · cases h
      · split at h
        · cases h
        · cases h
          exact upcase_strcpy_no_nul _

/-- Unfolding of `read_request` once the request line and the header block are read. -/
theorem read_request_of_parts (inp r1 r2 : List Nat) (rl : RequestLine)
    (header : List HTTPHeaderField) (h1 : read_request_line inp = Res.ok rl r1)
    (h2 : read_headers r1 = Res.ok header r2) :
    read_request inp =
      match content_length header with
      | .error e => Res.exit e r2
      | .ok length =>
        if length ≠ 0 then
          if length > MAX_REQUEST_BODY_LENGTH then
            Res.exit (log_exit LogMsg.request_body_too_long) r2
          else
            match fread length.toNat r2 with
            | (none, rest) => Res.exit (log_exit LogMsg.failed_to_read_request_body) rest
            | (some body, rest) =>
              Res.ok { protocol_minor_version := rl.protocol_minor_version
                       method := rl.method
                       path := rl.path
                       header := header
                       body := some body
                       length := length } rest
        else
          Res.ok { protocol_minor_version := rl.protocol_minor_version
                   method := rl.method
                   path := rl.path
                   header := header
                   body := none
                   length := length } r2 := by
  unfold read_request
  simp only [h1, h2]

/-- A request that `read_request` returns has the method, path and version that
`read_request_line` has read. -/
theorem read_request_ok_line (inp rest : List Nat) (req : HTTPRequest)
    (h : read_request inp = Res.ok req rest) :
    ∃ rl r1, read_request_line inp = Res.ok rl r1 ∧ req.method = rl.method
      ∧ req.path = rl.path ∧ req.protocol_minor_version = rl.protocol_minor_version := by
  unfold read_request at h
  split at h
  · cases h
  · rename_i rl r1 hrl
    refine ⟨rl, r1, hrl, ?_⟩
    split at h
    · cases h
    · split at h
      · cases h
      · split at h
        · split at h
          · cases h
          · split at h
            · cases h
            · cases h; exact ⟨rfl, rfl, rfl⟩
        · cases h; exact ⟨rfl, rfl, rfl⟩

theorem read_request_method_no_nul (inp rest : List Nat) (req : HTTPRequest)
    (h : read_request inp = Res.ok req rest) : ∀ c ∈ req.method, c ≠ 0 := by
  obtain ⟨rl, r1, hrl, hm, _, _⟩ := read_request_ok_line inp rest req h
  rw [hm]
  exact read_request_line_method_no_nul inp rl r1 hrl

/-! ## Dispatcher and response writer -/

theorem fmt_d_zero : fmt_d 0 = [48] := by decide

theorem output_common_header_fileds_some (date out status : List Nat)
    (hs : ∀ c ∈ status, c ≠ 0) :
    output_common_header_fileds (some date) out status
      = { out := out ++ (bytes "HTTP/1.0 " ++ status ++ bytes "\r\n") ++ common_headers date
          exit := none } := by
  simp [output_common_header_fileds, common_headers, strcpy_of_no_nul status hs, bytes,
    fmt_d_zero]

theorem not_found_some (date out : List Nat) :
    not_found (some date) out
      = { out := out ++ bytes "HTTP/1.0 404 Not Found\r\n" ++ common_headers date
                  ++ bytes "Content-Type: text/plain\r\n" ++ bytes "\r\n"
                  ++ bytes "not_found\r\n"
          exit := none } := by
  rw [not_found, output_common_header_fileds_some date out (bytes "404 Not Found") (by decide)]
  simp [bytes]

theorem method_not_allowed_some (date out : List Nat) :
    method_not_allowed (some date) out
      = { out := out ++ bytes "HTTP/1.0 405 Method Not Allowed\r\n" ++ common_headers date
                  ++ bytes "Content-Type: text/plain\r\n" ++ bytes "\r\n"
                  ++ bytes "method_not_allowed\r\n"
          exit := none } := by
  rw [method_not_allowed,
    output_common_header_fileds_some date out (bytes "405 Method Not Allowed") (by decide)]
  simp [bytes]

theorem not_implemented_some (date out : List Nat) :
    not_implemented (some date) out
      = { out := out ++ bytes "HTTP/1.0 501 Not Implemented\r\n" ++ common_headers date
                  ++ bytes "Content-Type: text/plain\r\n" ++ bytes "\r\n"
                  ++ bytes "not_implemented\r\n"
          exit := none } := by
  rw [not_implemented,
    output_common_header_fileds_some date out (bytes "501 Not Implemented") (by decide)]
  simp [bytes]

theorem copy_loop_spec_aux (n : Nat) : ∀ (remaining : List Nat) (error : Bool)
    (out : List Nat), remaining.length ≤ n →
    copy_loop remaining error out
      = { out := out ++ remaining
          exit := if error then some (log_exit LogMsg.failed_to_read) else none } := by
  induction n with
  | zero =>
    intro remaining error out hlen
    have hnil : remaining = [] := List.length_eq_zero.mp (Nat.le_zero.mp hlen)
    subst hnil
    unfold copy_loop
    cases error <;> simp
  | succ n ih =>
    intro remaining error out hlen
    cases remaining with
    | nil =>
      unfold copy_loop
      cases error <;> simp
    | cons c cs =>
      unfold copy_loop
      have hlt : ((c :: cs).drop BLOCK_BUF_SIZE).length ≤ n := by
        simp only [List.length_drop, List.length_cons, BLOCK_BUF_SIZE] at hlen ⊢
        omega
      rw [ih _ error _ hlt, List.append_assoc, List.take_append_drop]

theorem copy_loop_spec (remaining : List Nat) (error : Bool) (out : List Nat) :
    copy_loop remaining error out
      = { out := out ++ remaining
          exit := if error then some (log_exit LogMsg.failed_to_read) else none } :=
  copy_loop_spec_aux remaining.length remaining error out (Nat.le_refl _)

theorem build_fspath_of_no_nul (d p : List Nat) (hd : ∀ x ∈ d, x ≠ 0) (hp : ∀ x ∈ p, x ≠ 0) :
    build_fspath d p = d ++ p := by
  simp only [build_fspath, strcpy_of_no_nul d hd, strcpy_of_no_nul p hp]

theorem strcmp_get_head : strcmp (bytes "GET") (bytes "HEAD") ≠ 0 := by decide

/-- The header block that `do_file_respond` writes for a regular file, and what follows. -/
theorem do_file_respond_regular (req : HTTPRequest) (d : List Nat) (fs : FileSystem)
    (date : List Nat) (size : Nat) (hd : ∀ x ∈ d, x ≠ 0) (hp : ∀ x ∈ req.path, x ≠ 0)
    (hstat : fs.lstat (d ++ req.path)
      = some { st_mode := FileType.S_IFREG, st_size := size }) :
    do_file_respond req [] d fs (some date) =
      if strcmp req.method (bytes "HEAD") ≠ 0 then
        match fs.open_rdonly (d ++ req.path) with
        | none => { out := file_response_head date size
                    exit := some (log_exit LogMsg.failed_to_open) }
        | some fd => copy_loop fd.content fd.error (file_response_head date size)
      else { out := file_response_head date size, exit := none } := by
  have hinfo : get_fileinfo fs d req.path = { path := d ++ req.path, size := size, ok := true } := by
    simp [get_fileinfo, build_fspath_of_no_nul d req.path hd hp, hstat, S_ISREG]
  have hhead : ([] : List Nat) ++ (bytes "HTTP/1.0 " ++ bytes "200 OK" ++ bytes "\r\n")
      ++ common_headers date ++ (bytes "Content-Length: " ++ fmt_d size ++ bytes "\r\n")
      ++ (bytes "Content-Type: " ++ bytes "text/plain" ++ bytes "\r\n") ++ bytes "\r\n"
      = file_response_head date size := by
    simp [file_response_head, bytes]
  unfold do_file_respond
  simp only [hinfo, Bool.not_true, Bool.false_eq_true, if_false,
    output_common_header_fileds_some date [] (bytes "200 OK") (by decide), hhead]

theorem do_file_respond_not_regular (req : HTTPRequest) (d : List Nat) (fs : FileSystem)
    (clock : Clock) (hd : ∀ x ∈ d, x ≠ 0) (hp : ∀ x ∈ req.path, x ≠ 0)
    (hstat : fs.lstat (d ++ req.path) = none
      ∨ ∃ st, fs.lstat (d ++ req.path) = some st ∧ st.st_mode ≠ FileType.S_IFREG) :
    do_file_respond req [] d fs clock = not_found clock [] := by
  have hinfo : (get_fileinfo fs d req.path).ok = false := by
    rcases hstat with h | ⟨st, h, hne⟩
    · simp [get_fileinfo, build_fspath_of_no_nul d req.path hd hp, h]
    · simp [get_fileinfo, build_fspath_of_no_nul d req.path hd hp, h, S_ISREG, hne]
  unfold do_file_respond
  simp [hinfo]

/-- C2: for every parsed request `respond_to` routes on the method string alone.  POST gets
the response with status line `HTTP/1.0 405 Method Not Allowed`; a method other than GET,
HEAD and POST gets the one with status line `HTTP/1.0 501 Not Implemented`; neither depends
on the document root or the file system; GET and HEAD, and only they, are handed to the
file-serving function `do_file_respond`.  Here `date` is the date text that the clock
yields for the `Date` header. -/
theorem respond_to_routes_on_method (inp rest : List Nat) (req : HTTPRequest)
    (docroot : List Nat) (fs : FileSystem) (date : List Nat)
    (hreq : read_request inp = Res.ok req rest) :
    (req.method = bytes "POST" →
      respond_to req [] docroot fs (some date)
        = { out := bytes "HTTP/1.0 405 Method Not Allowed\r\n" ++ common_headers date
                    ++ bytes "Content-Type: text/plain\r\n" ++ bytes "\r\n"
                    ++ bytes "method_not_allowed\r\n"
            exit := none })
    ∧ (req.method ≠ bytes "GET" → req.method ≠ bytes "HEAD" → req.method ≠ bytes "POST" →
      respond_to req [] docroot fs (some date)
        = { out := bytes "HTTP/1.0 501 Not Implemented\r\n" ++ common_headers date
                    ++ bytes "Content-Type: text/plain\r\n" ++ bytes "\r\n"
                    ++ bytes "not_implemented\r\n"
            exit := none })
    ∧ (req.method = bytes "GET" ∨ req.method = bytes "HEAD" →
      ∀ clock, respond_to req [] docroot fs clock = do_file_respond req [] docroot fs clock) := by
  have h0 := read_request_method_no_nul inp rest req hreq
  have hget := strcmp_eq_zero_iff req.method (bytes "GET") h0 (by decide)
  have hhead := strcmp_eq_zero_iff req.method (bytes "HEAD") h0 (by decide)
  have hpost := strcmp_eq_zero_iff req.method (bytes "POST") h0 (by decide)
  refine ⟨?_, ?_, ?_⟩
  · intro hm
    have h1 : ¬ strcmp req.method (bytes "GET") = 0 := by rw [hget, hm]; decide
    have h2 : ¬ strcmp req.method (bytes "HEAD") = 0 := by rw [hhead, hm]; decide
    have h3 : strcmp req.method (bytes "POST") = 0 := hpost.mpr hm
    simp only [respond_to, h1, h2, h3, if_true, if_false, method_not_allowed_some,
      List.nil_append]
  · intro hm1 hm2 hm3
    have h1 : ¬ strcmp req.method (bytes "GET") = 0 := fun h => hm1 (hget.mp h)
    have h2 : ¬ strcmp req.method (bytes "HEAD") = 0 := fun h => hm2 (hhead.mp h)
    have h3 : ¬ strcmp req.method (bytes "POST") = 0 := fun h => hm3 (hpost.mp h)
    simp only [respond_to, h1, h2, h3, if_false, not_implemented_some, List.nil_append]
  · intro hm clock
    rcases hm with hm | hm
    · simp only [respond_to, hget.mpr hm, if_true]
    · have h1 : ¬ strcmp req.method (bytes "GET") = 0 := by rw [hget, hm]; decide
      simp only [respond_to, h1, hhead.mpr hm, if_true, if_false]

/-- C2, witness: the parsed requests `POST /x HTTP/1.0` and `PUT /x HTTP/1.0`. -/
theorem respond_to_routes_on_method_witness :
    respond_to (example_request (bytes "POST") (bytes "/x")) [] (bytes "/www") example_fs
        (some example_date)
      = { out := bytes "HTTP/1.0 405 Method Not Allowed\r\n" ++ common_headers example_date
                  ++ bytes "Content-Type: text/plain\r\n" ++ bytes "\r\n"
                  ++ bytes "method_not_allowed\r\n"
          exit := none }
    ∧ respond_to (example_request (bytes "PUT") (bytes "/x")) [] (bytes "/www") example_fs
        (some example_date)
      = { out := bytes "HTTP/1.0 501 Not Implemented\r\n" ++ common_headers example_date
                  ++ bytes "Content-Type: text/plain\r\n" ++ bytes "\r\n"
                  ++ bytes "not_implemented\r\n"
          exit := none } :=
  ⟨(respond_to_routes_on_method (bytes "post /x HTTP/1.0\r\n\r\n") [] _ (bytes "/www")
      example_fs example_date (by decide)).1 (by decide),
   (respond_to_routes_on_method (bytes "put /x HTTP/1.0\r\n\r\n") [] _ (bytes "/www")
      example_fs example_date (by decide)).2.1 (by decide) (by decide) (by decide)⟩

theorem do_file_respond_gmtime_failed (req : HTTPRequest) (d : List Nat) (fs : FileSystem) :
    do_file_respond req [] d fs none
      = { out := [], exit := some (log_exit LogMsg.gmtime_failed) } := by
  unfold do_file_respond
  cases (get_fileinfo fs d req.path).ok <;>
    simp [not_found, output_common_header_fileds]

/-- C4: for every document root, path naming an existing regular file, file-system state and
clock value, the response to a HEAD request is exactly the status line and header block of
the file response (with `Content-Length` the size of the file) up to and including the blank
line, with no byte after it, and the response to the GET request for the same path
consists of the very bytes of the HEAD response followed by the body.  The document root
and the path are C strings (no NUL byte); `date` is the date text that the clock yields, and
the second part holds for every outcome of the clock. -/
theorem head_response_is_get_header_block (get head : HTTPRequest) (d p : List Nat)
    (fs : FileSystem) (size : Nat)
    (hget : get.method = bytes "GET") (hhead : head.method = bytes "HEAD")
    (hgpath : get.path = p) (hhpath : head.path = p)
    (hd : ∀ x ∈ d, x ≠ 0) (hp : ∀ x ∈ p, x ≠ 0)
    (hstat : fs.lstat (d ++ p) = some { st_mode := FileType.S_IFREG, st_size := size }) :
    (∀ date, respond_to head [] d fs (some date)
        = { out := file_response_head date size, exit := none })
    ∧ ∀ clock, ∃ body, (respond_to get [] d fs clock).out
        = (respond_to head [] d fs clock).out ++ body := by
  subst hgpath
  have hdh : ∀ clock, respond_to head [] d fs clock = do_file_respond head [] d fs clock := by
    intro clock
    simp only [respond_to, hhead]
    rfl
  have hdg : ∀ clock, respond_to get [] d fs clock = do_file_respond get [] d fs clock := by
    intro clock
    simp only [respond_to, hget]
    rfl
  have hhd : ∀ date, respond_to head [] d fs (some date)
      = { out := file_response_head date size, exit := none } := by
    intro date
    rw [hdh, do_file_respond_regular head d fs date size hd (by rw [hhpath]; exact hp)
      (by rw [hhpath]; exact hstat), hhead]
    rfl
  refine ⟨hhd, ?_⟩
  intro clock
  cases clock with
  | none =>
    rw [hdh, hdg, do_file_respond_gmtime_failed, do_file_respond_gmtime_failed]
    exact ⟨[], rfl⟩
  | some date =>
    rw [hhd, hdg, do_file_respond_regular get d fs date size hd hp hstat, hget]
    simp only [strcmp_get_head, ne_eq, not_false_eq_true, if_true]
    cases hopen : fs.open_rdonly (d ++ get.path) with
    | none => exact ⟨[], by simp⟩
    | some fd => exact ⟨fd.content, by simp [copy_loop_spec]⟩

/-- C4, witness: `HEAD /a.txt` and `GET /a.txt` with document root `/www`. -/
theorem head_response_is_get_header_block_witness :
    respond_to (example_request (bytes "HEAD") (bytes "/a.txt")) [] (bytes "/www") example_fs
        (some example_date)
        = { out := file_response_head example_date 5, exit := none }
    ∧ ∃ body,
      (respond_to (example_request (bytes "GET") (bytes "/a.txt")) [] (bytes "/www") example_fs
        (some example_date)).out
        = (respond_to (example_request (bytes "HEAD") (bytes "/a.txt")) [] (bytes "/www")
            example_fs (some example_date)).out ++ body :=
  ⟨(head_response_is_get_header_block (example_request (bytes "GET") (bytes "/a.txt"))
      (example_request (bytes "HEAD") (bytes "/a.txt")) (bytes "/www") (bytes "/a.txt")
      example_fs 5 rfl rfl rfl rfl (by decide) (by decide) (by decide)).1 example_date,
   (head_response_is_get_header_block (example_request (bytes "GET") (bytes "/a.txt"))
      (example_request (bytes "HEAD") (bytes "/a.txt")) (bytes "/www") (bytes "/a.txt")
      example_fs 5 rfl rfl rfl rfl (by decide) (by decide) (by decide)).2 (some example_date)⟩

theorem not_found_lines (date : List Nat) (hdate : ∀ c ∈ date, c ≠ 10) :
    response_lines (bytes "HTTP/1.0 404 Not Found\r\n" ++ common_headers date
                  ++ bytes "Content-Type: text/plain\r\n" ++ bytes "\r\n"
                  ++ bytes "not_found\r\n")
      = [bytes "HTTP/1.0 404 Not Found\r", bytes "Date: " ++ date ++ bytes "\r",
         bytes "Server: super server/2.3\r", bytes "Connection: close\r",
         bytes "Content-Type: text/plain\r", bytes "\r", bytes "not_found\r", []] := by
  have hsplit : bytes "HTTP/1.0 404 Not Found\r\n" ++ common_headers date
                  ++ bytes "Content-Type: text/plain\r\n" ++ bytes "\r\n"
                  ++ bytes "not_found\r\n"
      = [10].intercalate [bytes "HTTP/1.0 404 Not Found\r",
          bytes "Date: " ++ date ++ bytes "\r", bytes "Server: super server/2.3\r",
          bytes "Connection: close\r", bytes "Content-Type: text/plain\r", bytes "\r",
          bytes "not_found\r", []] := by
    simp [List.intercalate, common_headers, bytes]
  rw [response_lines, hsplit, List.splitOn_intercalate]
  · intro l hl
    simp only [List.mem_cons, List.mem_singleton, List.not_mem_nil, or_false] at hl
    rcases hl with h | h | h | h | h | h | h | h <;> subst h
    · decide
    · intro hmem
      simp only [List.mem_append] at hmem
      rcases hmem with (hm | hm) | hm
      · revert hm; decide
      · exact hdate 10 hm rfl
      · revert hm; decide
    · decide
    · decide
    · decide
    · decide
    · decide
    · decide
  · simp

theorem not_found_no_content_length (date : List Nat) (hdate : ∀ c ∈ date, c ≠ 10) :
    ∀ l ∈ response_lines (bytes "HTTP/1.0 404 Not Found\r\n" ++ common_headers date
                  ++ bytes "Content-Type: text/plain\r\n" ++ bytes "\r\n"
                  ++ bytes "not_found\r\n"), ¬ is_content_length_line l := by
  rw [not_found_lines date hdate]
  intro l hl
  simp only [List.mem_cons, List.mem_singleton, List.not_mem_nil, or_false] at hl
  rcases hl with h | h | h | h | h | h | h | h <;> subst h
  · decide
  · simp [is_content_length_line, bytes, tolower]
  · decide
  · decide
  · decide
  · decide
  · decide
  · decide

/-- C5: for every GET request whose resolved path (document root ++ request path) does not
exist or is not a regular file (`lstat` fails, or reports a file type other than regular),
the outcome is the not-found response: status line `HTTP/1.0 404 Not Found`, the common
headers, `Content-Type: text/plain`, the blank line and the fixed body `not_found` (with CR
LF); the handler returns normally, without `log_exit`, and never opens the file.  No line
of the response is a `Content-Length` header line (the date text of `strftime` holds no line
feed).  The document root and the path are C strings (no NUL byte), and `date` is the date
text that the clock yields. -/
theorem get_not_found_response (req : HTTPRequest) (d p : List Nat) (fs : FileSystem)
    (date : List Nat) (hmethod : req.method = bytes "GET") (hpath : req.path = p)
    (hd : ∀ x ∈ d, x ≠ 0) (hp : ∀ x ∈ p, x ≠ 0)
    (hstat : fs.lstat (d ++ p) = none
      ∨ ∃ st, fs.lstat (d ++ p) = some st ∧ st.st_mode ≠ FileType.S_IFREG) :
    respond_to req [] d fs (some date)
      = { out := bytes "HTTP/1.0 404 Not Found\r\n" ++ common_headers date
                  ++ bytes "Content-Type: text/plain\r\n" ++ bytes "\r\n"
                  ++ bytes "not_found\r\n"
          exit := none }
    ∧ ((∀ c ∈ date, c ≠ 10) →
        ∀ l ∈ response_lines (respond_to req [] d fs (some date)).out,
          ¬ is_content_length_line l) := by
  subst hpath
  have hdisp : respond_to req [] d fs (some date) = do_file_respond req [] d fs (some date) := by
    simp only [respond_to, hmethod]
    rfl
  have hout : respond_to req [] d fs (some date)
      = { out := bytes "HTTP/1.0 404 Not Found\r\n" ++ common_headers date
                  ++ bytes "Content-Type: text/plain\r\n" ++ bytes "\r\n"
                  ++ bytes "not_found\r\n"
          exit := none } := by
    rw [hdisp, do_file_respond_not_regular req d fs (some date) hd hp hstat, not_found_some]
    simp
  refine ⟨hout, ?_⟩
  intro hdate
  rw [hout]
  exact not_found_no_content_length date hdate

/-- C5, witness: `GET /missing` (no such file) and `GET /` (a directory) with document root
`/www`. -/
theorem get_not_found_response_witness :
    (respond_to (example_request (bytes "GET") (bytes "/missing")) [] (bytes "/www") example_fs
        (some example_date)
      = { out := bytes "HTTP/1.0 404 Not Found\r\n" ++ common_headers example_date
                  ++ bytes "Content-Type: text/plain\r\n" ++ bytes "\r\n"
                  ++ bytes "not_found\r\n"
          exit := none }
      ∧ ∀ l ∈ response_lines (respond_to (example_request (bytes "GET") (bytes "/missing")) []
          (bytes "/www") example_fs (some example_date)).out, ¬ is_content_length_line l)
    ∧ respond_to (example_request (bytes "GET") (bytes "/")) [] (bytes "/www") example_fs
        (some example_date)
      = { out := bytes "HTTP/1.0 404 Not Found\r\n" ++ common_headers example_date
                  ++ bytes "Content-Type: text/plain\r\n" ++ bytes "\r\n"
                  ++ bytes "not_found\r\n"
          exit := none } :=
  ⟨⟨(get_not_found_response _ (bytes "/www") (bytes "/missing") example_fs example_date rfl
      rfl (by decide) (by decide) (Or.inl (by decide))).1,
    (get_not_found_response _ (bytes "/www") (bytes "/missing") example_fs example_date rfl
      rfl (by decide) (by decide) (Or.inl (by decide))).2 (by decide)⟩,
   (get_not_found_response _ (bytes "/www") (bytes "/") example_fs example_date rfl rfl
     (by decide) (by decide)
     (Or.inr ⟨{ st_mode := FileType.S_IFDIR, st_size := 4096 }, by decide, by decide⟩)).1⟩

/-! ## Header loop and request body -/

theorem fgets_loop_append (k : Nat) (s : List Nat) :
    (fgets_loop k s).1 ++ (fgets_loop k s).2 = s := by
  induction k generalizing s with
  | zero => simp [fgets_loop]
  | succ k ih =>
    cases s with
    | nil => simp [fgets_loop]
    | cons c cs =>
      by_cases hc : c = 10
      · simp [fgets_loop, hc]
      · simp [fgets_loop, hc, ih cs]

theorem fgets_some (size : Nat) (inp line rest : List Nat)
    (h : fgets size inp = some (line, rest)) : inp = line ++ rest ∧ line ≠ [] := by
  unfold fgets at h
  have happ := fgets_loop_append (size - 1) inp
  split at h
  · cases h
  · rename_i l r hnil heq
    cases h
    rw [heq] at happ
    refine ⟨happ.symm, ?_⟩
    intro hl
    subst hl
    exact hnil rfl

theorem read_header_field_ok (inp rest : List Nat) (x : Option HTTPHeaderField)
    (h : read_header_field inp = Res.ok x rest) :
    ∃ line, inp = line ++ rest ∧ line ≠ [] := by
  unfold read_header_field at h
  split at h
  · cases h
  · rename_i buf r hf
    obtain ⟨happ, hne⟩ := fgets_some _ _ _ _ hf
    split at h
    · cases h
      exact ⟨buf, happ, hne⟩
    · split at h
      · cases h
      · cases h
        exact ⟨buf, happ, hne⟩

/-- The fuel of the header loop is never used up: the result is the same for every fuel above
the length of the stream. -/
theorem read_header_fields_fuel (fuel fuel2 : Nat) (inp : List Nat)
    (header : List HTTPHeaderField) (h1 : inp.length < fuel) (h2 : inp.length < fuel2) :
    read_header_fields fuel inp header = read_header_fields fuel2 inp header := by
  induction fuel generalizing fuel2 inp header with
  | zero => omega
  | succ fuel ih =>
    cases fuel2 with
    | zero => omega
    | succ fuel2 =>
      unfold read_header_fields
      cases hr : read_header_field inp with
      | exit e rest => rfl
      | ok x rest =>
        cases x with
        | none => rfl
        | some hf =>
          obtain ⟨line, happ, hne⟩ := read_header_field_ok inp rest _ hr
          have hlen : rest.length < inp.length := by
            have hpos : 0 < line.length := List.length_pos.mpr hne
            rw [happ, List.length_append]
            omega
          exact ih fuel2 rest (hf :: header) (by omega) (by omega)

theorem content_length_some (header : List HTTPHeaderField) (v : List Nat)
    (h : lookup_header_field_value header (bytes "Content-Length") = some v) :
    content_length header
      = if atoi v < 0 then Except.error (log_exit LogMsg.negative_content_length)
        else Except.ok (atoi v) := by
  simp only [content_length, h]

theorem atoi_digits (ds : List Nat) (t : List Nat) (hds : ∀ d ∈ ds, d < 10)
    (ht : t.head?.all (fun c => !isdigit c) = true) (hpos : 1 ≤ decimal_value ds)
    (hn : decimal_value ds ≤ 2147483647) :
    atoi (decimal_text ds ++ t) = (decimal_value ds : Int) := by
  have hval : strtol_digits 0 (decimal_text ds ++ t) = decimal_value ds :=
    strtol_digits_text ds hds 0 t ht
  cases ds with
  | nil => simp [decimal_value] at hpos
  | cons d ds =>
    have hd : d < 10 := hds d (List.mem_cons_self _ _)
    have hsp : isspace (d + 48) = false := by simp [isspace]
    have hstr : strtol (decimal_text (d :: ds) ++ t) = (decimal_value (d :: ds) : Int) := by
      unfold strtol
      simp only [decimal_text, List.map_cons, List.cons_append, List.dropWhile_cons, hsp]
      simp only [decimal_text, List.map_cons, List.cons_append] at hval
      split
      · rename_i heq; simp at heq
      · rename_i heq; simp at heq
      · simp only [Bool.false_eq_true, if_false]
        rw [hval]
        simp only [LONG_MAX, LONG_MIN]
        omega
    unfold atoi long_to_int
    rw [hstr]
    omega

theorem atoi_minus_digits (ds : List Nat) (t : List Nat) (hds : ∀ d ∈ ds, d < 10)
    (ht : t.head?.all (fun c => !isdigit c) = true) (hn : decimal_value ds ≤ 2147483648) :
    atoi (45 :: (decimal_text ds ++ t)) = -(decimal_value ds : Int) := by
  have hval : strtol_digits 0 (decimal_text ds ++ t) = decimal_value ds :=
    strtol_digits_text ds hds 0 t ht
  have hstr : strtol (45 :: (decimal_text ds ++ t)) = -(decimal_value ds : Int) := by
    unfold strtol
    have hsp : isspace 45 = false := by decide
    simp only [List.dropWhile_cons, hsp, Bool.false_eq_true, if_false, hval]
    simp only [LONG_MAX, LONG_MIN]
    omega
  unfold atoi long_to_int
  rw [hstr]
  omega

/-- C8 (as amended): for every request whose request line and header block parse and whose
`Content-Length` header (the one that lookup selects) has a negative value in the range of
`int` (its text is a minus sign and decimal digits that denote `m` with
`1 ≤ m ≤ 2147483648`, not followed by a further digit), `read_request` ends in
`log_exit` ("negative Content-Length value"), and the stream still holds every byte that
follows the blank line: no body read is attempted. -/
theorem read_request_negative_content_length (inp r1 r2 : List Nat) (rl : RequestLine)
    (header : List HTTPHeaderField) (v : List Nat) (ds : List Nat) (t : List Nat)
    (hline : read_request_line inp = Res.ok rl r1)
    (hhdr : read_headers r1 = Res.ok header r2)
    (hcl : lookup_header_field_value header (bytes "Content-Length") = some v)
    (hv : v = bytes "-" ++ decimal_text ds ++ t) (hds : ∀ d ∈ ds, d < 10)
    (ht : t.head?.all (fun c => !isdigit c) = true)
    (hm1 : 1 ≤ decimal_value ds) (hm2 : decimal_value ds ≤ 2147483648) :
    read_request inp = Res.exit (log_exit LogMsg.negative_content_length) r2 := by
  have hminus : bytes "-" = [45] := by decide
  have hatoi : atoi v = -(decimal_value ds : Int) := by
    rw [hv, hminus]
    exact atoi_minus_digits ds t hds ht hm2
  have hneg : atoi v < 0 := by rw [hatoi]; omega
  rw [read_request_of_parts inp r1 r2 rl header hline hhdr, content_length_some header v hcl]
  simp only [hneg, if_true]

/-- C8, witness: `Content-Length: -1` followed by the bytes `hello`. -/
theorem read_request_negative_content_length_witness :
    read_request (bytes "GET / HTTP/1.0\r\nContent-Length: -1\r\n\r\nhello")
      = Res.exit (log_exit LogMsg.negative_content_length) (bytes "hello") :=
  read_request_negative_content_length
    (bytes "GET / HTTP/1.0\r\nContent-Length: -1\r\n\r\nhello")
    (bytes "Content-Length: -1\r\n\r\nhello") (bytes "hello")
    { protocol_minor_version := 0, method := bytes "GET", path := bytes "/" }
    [{ name := bytes "Content-Length", value := bytes "-1\r\n" }] (bytes "-1\r\n")
    [1] (bytes "\r\n")
    (by decide) (by decide) (by decide) (by decide) (by decide) (by decide) (by decide)
    (by decide)

/-- C8, counterexample: the value `-4294967295` is negative, yet `atoi` reads it as 1: the
request is accepted with length 1 and one byte after the blank line is read as its body;
and the value `-99999999999999999999` is read as 0: the request is accepted without a
body. -/
theorem read_request_negative_counterexample :
    read_request (bytes "GET / HTTP/1.0\r\nContent-Length: -4294967295\r\n\r\nhello")
        = Res.ok { protocol_minor_version := 0
                   method := bytes "GET"
                   path := bytes "/"
                   header := [{ name := bytes "Content-Length"
                                value := bytes "-4294967295\r\n" }]
                   body := some (bytes "h")
                   length := 1 } (bytes "ello")
    ∧ read_request
          (bytes "GET / HTTP/1.0\r\nContent-Length: -99999999999999999999\r\n\r\nhello")
        = Res.ok { protocol_minor_version := 0
                   method := bytes "GET"
                   path := bytes "/"
                   header := [{ name := bytes "Content-Length"
                                value := bytes "-99999999999999999999\r\n" }]
                   body := none
                   length := 0 } (bytes "hello") := by
  decide

/-! ## Malformed request lines -/

theorem fgets_loop_line_prefix (k : Nat) (l rest : List Nat) (hl : ∀ c ∈ l, c ≠ 10) :
    ∃ suffix, (fgets_loop k (l ++ 10 :: rest)).1 ++ suffix = l ++ [10] := by
  induction l generalizing k with
  | nil =>
    cases k with
    | zero => exact ⟨[10], by simp [fgets_loop]⟩
    | succ k => exact ⟨[], by simp [fgets_loop]⟩
  | cons x xs ih =>
    cases k with
    | zero => exact ⟨x :: xs ++ [10], by simp [fgets_loop]⟩
    | succ k =>
      have hx : x ≠ 10 := hl x (List.mem_cons_self _ _)
      obtain ⟨suffix, hs⟩ := ih k (fun y hy => hl y (List.mem_cons_of_mem _ hy))
      exact ⟨suffix, by simp [fgets_loop, hx, hs]⟩

theorem strchr_some (s : List Nat) (c : Nat) (a b : List Nat)
    (h : strchr s c = some (a, b)) : s = a ++ c :: b ∧ ∀ x ∈ a, x ≠ c := by
  induction s generalizing a with
  | nil => simp [strchr] at h
  | cons x xs ih =>
    unfold strchr at h
    by_cases hx : x = c
    · simp only [hx, if_true, Option.some.injEq, Prod.mk.injEq] at h
      obtain ⟨rfl, rfl⟩ := h
      simp [hx]
    · simp only [hx, if_false] at h
      by_cases h0 : x = 0
      · simp [h0] at h
      · simp only [h0, if_false] at h
        cases hrec : strchr xs c with
        | none => simp [hrec] at h
        | some r =>
          obtain ⟨a1, b1⟩ := r
          simp only [hrec, Option.some.injEq, Prod.mk.injEq] at h
          obtain ⟨rfl, rfl⟩ := h
          obtain ⟨hs, hn⟩ := ih a1 hrec
          refine ⟨by rw [hs]; rfl, ?_⟩
          intro y hy
          rcases List.mem_cons.mp hy with rfl | hy
          · exact hx
          · exact hn y hy

theorem first_split_unique (c : Nat) (a a2 x x2 : List Nat) (ha : ∀ y ∈ a, y ≠ c)
    (ha2 : ∀ y ∈ a2, y ≠ c) (h : a ++ c :: x = a2 ++ c :: x2) : a = a2 ∧ x = x2 := by
  induction a generalizing a2 with
  | nil =>
    cases a2 with
    | nil => simpa using h
    | cons z zs =>
      simp only [List.nil_append, List.cons_append, List.cons.injEq] at h
      exact absurd h.1.symm (ha2 z (List.mem_cons_self _ _))
  | cons y ys ih =>
    cases a2 with
    | nil =>
      simp only [List.nil_append, List.cons_append, List.cons.injEq] at h
      exact absurd h.1 (ha y (List.mem_cons_self _ _))
    | cons z zs =>
      simp only [List.cons_append, List.cons.injEq] at h
      obtain ⟨h1, h2⟩ := ih zs (fun w hw => ha w (List.mem_cons_of_mem _ hw))
        (fun w hw => ha2 w (List.mem_cons_of_mem _ hw)) h.2
      exact ⟨by rw [h.1, h1], h2⟩

theorem strncasecmp_eq_zero (t : List Nat) (ht : ∀ c ∈ t, tolower c ≠ 0) (s : List Nat)
    (h : strncasecmp s t t.length = 0) :
    (s.take t.length).map tolower = t.map tolower ∧ t.length ≤ s.length := by
  induction t generalizing s with
  | nil => simp
  | cons y ys ih =>
    have hy : tolower y ≠ 0 := ht y (List.mem_cons_self _ _)
    simp only [List.length_cons, strncasecmp, List.headD_cons, List.tail_cons] at h
    by_cases hc : tolower (s.headD 0) = tolower y
    · simp only [hc, ne_eq, not_true_eq_false, if_false, hy] at h
      cases s with
      | nil =>
        have : tolower 0 = 0 := by decide
        simp only [List.headD_nil, this] at hc
        exact absurd hc.symm hy
      | cons x xs =>
        simp only [List.headD_cons] at hc
        simp only [List.tail_cons] at h
        obtain ⟨h1, h2⟩ := ih (fun c hc => ht c (List.mem_cons_of_mem _ hc)) xs h
        simp only [List.length_cons, List.take_succ_cons, List.map_cons, hc, h1, true_and]
        omega
    · have hne : (tolower (s.headD 0) : Int) - (tolower y : Int) ≠ 0 := by omega
      simp only [ne_eq, hc, not_false_eq_true, if_true] at h
      exact absurd h hne

theorem strncasecmp_http1_zero (p : List Nat)
    (h : strncasecmp p (bytes "HTTP/1.") (strlen (bytes "HTTP/1.")) = 0) :
    (p.take 7).map tolower = bytes "http/1." ∧ 7 ≤ p.length := by
  have := strncasecmp_eq_zero (bytes "HTTP/1.") (by decide) p h
  simpa [bytes_http1] using this

theorem read_request_line_ok (inp rest : List Nat) (rl : RequestLine)
    (h : read_request_line inp = Res.ok rl rest) :
    ∃ buf m q path p, fgets LINE_BUF_SIZE inp = some (buf, rest)
      ∧ strchr buf 32 = some (m, q) ∧ strchr q 32 = some (path, p)
      ∧ strncasecmp p (bytes "HTTP/1.") (strlen (bytes "HTTP/1.")) = 0 := by
  unfold read_request_line at h
  split at h
  · cases h
  · rename_i buf r hf
    split at h
    · cases h
    · rename_i m q hm
      split at h
      · cases h
      · rename_i path p hp
        split at h
        · cases h
        · rename_i hcmp
          cases h
          exact ⟨buf, m, q, path, p, hf, hm, hp, by simpa using hcmp⟩

theorem read_request_line_exit_status (inp rest : List Nat) (e : Exit)
    (h : read_request_line inp = Res.exit e rest) : e.status = 1 := by
  unfold read_request_line at h
  split at h
  · cases h; rfl
  · split at h
    · cases h; rfl
    · split at h
      · cases h; rfl
      · split at h
        · cases h; rfl
        · cases h

/-- C9: for every request line `l` followed by a line feed, if `l` has fewer than two space
characters (no second space-delimited token), or if the text `t` after its second space does
not begin with the case-insensitive prefix `HTTP/1.`, then `read_request_line` ends in
`log_exit`, that is `exit(1)`, and produces no request. -/
theorem read_request_line_malformed (l rest : List Nat) (hl : ∀ c ∈ l, c ≠ 10)
    (hbad : l.count 32 < 2
      ∨ ∃ a b t, l = a ++ 32 :: (b ++ 32 :: t) ∧ (∀ c ∈ a, c ≠ 32) ∧ (∀ c ∈ b, c ≠ 32)
          ∧ ¬ begins_with_http1 t) :
    ∃ e rest2, read_request_line (l ++ 10 :: rest) = Res.exit e rest2 ∧ e.status = 1 := by
  cases hres : read_request_line (l ++ 10 :: rest) with
  | exit e rest2 => exact ⟨e, rest2, rfl, read_request_line_exit_status _ _ _ hres⟩
  | ok rl rest2 =>
    exfalso
    obtain ⟨buf, m, q, path, p, hf, hm, hq, hcmp⟩ := read_request_line_ok _ _ _ hres
    obtain ⟨suffix, hsuf⟩ := fgets_loop_line_prefix (LINE_BUF_SIZE - 1) l rest hl
    have hbuf : (fgets_loop (LINE_BUF_SIZE - 1) (l ++ 10 :: rest)).1 = buf := by
      unfold fgets at hf
      split at hf
      · cases hf
      · rename_i heq
        cases hf
        rw [heq]
    rw [hbuf] at hsuf
    obtain ⟨hbm, hm32⟩ := strchr_some buf 32 m q hm
    obtain ⟨hqp, hp32⟩ := strchr_some q 32 path p hq
    rw [hbm, hqp] at hsuf
    rcases hbad with hcount | ⟨a, b, t, hlt, ha, hb, hnot⟩
    · have hc := congrArg (List.count 32) hsuf
      simp only [List.count_append, List.count_cons_self, List.count_cons, List.count_nil] at hc
      simp only [show ((10 : Nat) == 32) = false by decide] at hc
      simp at hc
      omega
    · rw [hlt] at hsuf
      simp only [List.append_assoc, List.cons_append] at hsuf
      obtain ⟨_, h2⟩ := first_split_unique 32 m a _ _ hm32 ha hsuf
      obtain ⟨_, h3⟩ := first_split_unique 32 path b _ _ hp32 hb h2
      obtain ⟨hpre, hlen⟩ := strncasecmp_http1_zero p hcmp
      have htake : (t ++ [10]).take 7 = p.take 7 := by
        rw [← h3, List.take_append_of_le_length hlen]
      by_cases htl : 7 ≤ t.length
      · apply hnot
        unfold begins_with_http1
        rw [← hpre, ← htake, List.take_append_of_le_length htl]
      · have hmem : 10 ∈ (t ++ [10]).take 7 := by
          rw [List.take_append_eq_append_take]
          apply List.mem_append_right
          have : 0 < 7 - t.length := by omega
          have h1 : List.take (7 - t.length) [10] = [10] := by
            apply List.take_of_length_le
            simp only [List.length_singleton]
            omega
          rw [h1]
          exact List.mem_singleton_self _
        rw [htake] at hmem
        have hmem2 : tolower 10 ∈ (p.take 7).map tolower := List.mem_map_of_mem _ hmem
        rw [hpre] at hmem2
        revert hmem2
        decide

/-- C9, witness: `GET /index.html` has one space, and the version token of
`GET / HTTX/1.0` does not begin with `HTTP/1.`. -/
theorem read_request_line_malformed_witness :
    (∃ e rest2, read_request_line (bytes "GET /index.html\r" ++ 10 :: bytes "\r\n")
        = Res.exit e rest2 ∧ e.status = 1)
    ∧ (∃ e rest2, read_request_line (bytes "GET / HTTX/1.0\r" ++ 10 :: bytes "\r\n")
        = Res.exit e rest2 ∧ e.status = 1) :=
  ⟨read_request_line_malformed (bytes "GET /index.html\r") (bytes "\r\n") (by decide)
     (Or.inl (by decide)),
   read_request_line_malformed (bytes "GET / HTTX/1.0\r") (bytes "\r\n") (by decide)
     (Or.inr ⟨bytes "GET", bytes "/", bytes "HTTX/1.0\r", by decide, by decide, by decide,
       by decide⟩)⟩

/-! ## Request lines that are too long or not terminated -/

theorem fgets_loop_full (k : Nat) (l rest : List Nat) (hl : ∀ c ∈ l, c ≠ 10)
    (hk : l.length = k) : fgets_loop k (l ++ rest) = (l, rest) := by
  induction l generalizing k with
  | nil =>
    subst hk
    simp [fgets_loop]
  | cons x xs ih =>
    subst hk
    have hx : x ≠ 10 := hl x (List.mem_cons_self _ _)
    simp [fgets_loop, hx, ih xs.length (fun y hy => hl y (List.mem_cons_of_mem _ hy)) rfl]

theorem padding_length : padding.length = 4081 := by
  rw [padding, List.length_replicate]

theorem padding_mem (c : Nat) (h : c ∈ padding) : c = 97 := List.eq_of_mem_replicate h

/-- C10, counterexample: a request line of 4102 bytes before its line feed does not fit the
line buffer, yet `read_request` returns a request: the first 4095 bytes are parsed as the
request line and the remaining `Host: x` as a header line. -/
theorem read_request_long_line_counterexample :
    LINE_BUF_SIZE < long_request_line.length
    ∧ (∀ c ∈ long_request_line, c ≠ 10)
    ∧ read_request (long_request_line ++ bytes "\n\n")
      = Res.ok { protocol_minor_version := 0
                 method := bytes "GET"
                 path := 47 :: padding
                 header := [{ name := bytes "Host", value := bytes "x\n" }]
                 body := none
                 length := 0 } [] := by
  have hpath : ∀ c ∈ 47 :: padding, c ≠ 32 ∧ c ≠ 0 ∧ c ≠ 10 := by
    intro c hc
    rcases List.mem_cons.mp hc with h | h
    · subst h; decide
    · rw [padding_mem c h]; decide
  have hget : ∀ c ∈ bytes "GET", c ≠ 10 := by decide
  have hver : ∀ c ∈ bytes "HTTP/1.0", c ≠ 10 := by decide
  have hhost : ∀ c ∈ bytes "Host: x", c ≠ 10 := by decide
  have hfirst : ∀ c ∈ bytes "GET" ++ 32 :: ((47 :: padding) ++ 32 :: bytes "HTTP/1.0"),
      c ≠ 10 := by
    intro c hc
    rcases List.mem_append.mp hc with h | h
    · exact hget c h
    · rcases List.mem_cons.mp h with h | h
      · omega
      · rcases List.mem_append.mp h with h | h
        · exact (hpath c h).2.2
        · rcases List.mem_cons.mp h with h | h
          · omega
          · exact hver c h
  have h10 : ∀ c ∈ long_request_line, c ≠ 10 := by
    intro c hc
    rcases List.mem_append.mp hc with h | h
    · exact hfirst c h
    · exact hhost c h
  have hlen : (bytes "GET" ++ 32 :: ((47 :: padding) ++ 32 :: bytes "HTTP/1.0")).length
      = 4095 := by
    simp [bytes, padding_length]
  refine ⟨?_, h10, ?_⟩
  · rw [long_request_line, List.length_append, hlen]
    decide
  · have hsplit : long_request_line ++ bytes "\n\n"
        = (bytes "GET" ++ 32 :: ((47 :: padding) ++ 32 :: bytes "HTTP/1.0"))
            ++ bytes "Host: x\n\n" := by
      rw [long_request_line, List.append_assoc]
      rfl
    have hfg : fgets LINE_BUF_SIZE (long_request_line ++ bytes "\n\n")
        = some (bytes "GET" ++ 32 :: ((47 :: padding) ++ 32 :: bytes "HTTP/1.0"),
            bytes "Host: x\n\n") := by
      rw [hsplit]
      unfold fgets
      rw [fgets_loop_full _ _ _ hfirst (by rw [hlen]; rfl)]
      rfl
    have hline : read_request_line (long_request_line ++ bytes "\n\n")
        = Res.ok { protocol_minor_version := 0
                   method := bytes "GET"
                   path := 47 :: padding } (bytes "Host: x\n\n") := by
      unfold read_request_line
      rw [hfg]
      simp only []
      rw [strchr_append (bytes "GET") _ 32 (by decide) (by decide)]
      simp only []
      rw [strchr_append (47 :: padding) _ 32 (fun x hx => (hpath x hx).1)
        (fun x hx => (hpath x hx).2.1)]
      simp only []
      rw [strcpy_of_no_nul (47 :: padding) (fun x hx => (hpath x hx).2.1)]
      have h1 : strncasecmp (bytes "HTTP/1.0") (bytes "HTTP/1.") (strlen (bytes "HTTP/1."))
          = 0 := by
        decide
      have h2 : atoi ((bytes "HTTP/1.0").drop (strlen (bytes "HTTP/1."))) = 0 := by decide
      have h3 : upcase (strcpy (bytes "GET")) = bytes "GET" := by decide
      simp only [h1, h2, h3, ne_eq, not_true_eq_false, if_false]
    have hhdr : read_headers (bytes "Host: x\n\n")
        = Res.ok [{ name := bytes "Host", value := bytes "x\n" }] [] := by
      decide
    have hcl : content_length [{ name := bytes "Host", value := bytes "x\n" }] = Except.ok 0 := by
      rfl
    rw [read_request_of_parts _ _ _ _ _ hline hhdr, hcl]
    rfl

theorem strcmp_crlf_zero (buf : List Nat) (h : strcmp buf (bytes "\r\n") = 0) : 10 ∈ buf := by
  have hb : bytes "\r\n" = [13, 10] := by decide
  rw [hb] at h
  cases buf with
  | nil => simp [strcmp] at h
  | cons a t =>
    by_cases ha : a = 13
    · subst ha
      cases t with
      | nil => simp [strcmp] at h
      | cons b u =>
        by_cases hb2 : b = 10
        · subst hb2
          simp
        · have : (b : Int) - 10 ≠ 0 := by omega
          simp [strcmp, hb2, this] at h
    · have : (a : Int) - 13 ≠ 0 := by omega
      simp [strcmp, ha, this] at h

theorem read_header_field_end_has_lf (inp rest : List Nat)
    (h : read_header_field inp = Res.ok none rest) : 10 ∈ inp := by
  unfold read_header_field at h
  split at h
  · cases h
  · rename_i buf r hf
    obtain ⟨happ, hne⟩ := fgets_some _ _ _ _ hf
    have hsub : ∀ c ∈ buf, c ∈ inp := by
      intro c hc
      rw [happ]
      exact List.mem_append_left _ hc
    split at h
    · rename_i hcond
      rcases hcond with h1 | h1
      · cases buf with
        | nil => exact absurd rfl hne
        | cons a t =>
          simp only [List.headD_cons] at h1
          subst h1
          exact hsub 10 (List.mem_cons_self _ _)
      · exact hsub 10 (strcmp_crlf_zero buf h1)
    · split at h
      · cases h
      · cases h

theorem read_header_field_exit_status (inp rest : List Nat) (e : Exit)
    (h : read_header_field inp = Res.exit e rest) : e.status = 1 := by
  unfold read_header_field at h
  split at h
  · cases h; rfl
  · split at h
    · cases h
    · split at h
      · cases h; rfl
      · cases h

theorem read_header_fields_unterminated (fuel : Nat) (inp : List Nat)
    (header : List HTTPHeaderField) (hfuel : inp.length < fuel) (h : ∀ c ∈ inp, c ≠ 10) :
    ∃ e rest, read_header_fields fuel inp header = Res.exit e rest ∧ e.status = 1 := by
  induction fuel generalizing inp header with
  | zero => omega
  | succ fuel ih =>
    unfold read_header_fields
    cases hr : read_header_field inp with
    | exit e rest => exact ⟨e, rest, rfl, read_header_field_exit_status inp rest e hr⟩
    | ok x rest =>
      cases x with
      | none => exact absurd rfl (h 10 (read_header_field_end_has_lf inp rest hr))
      | some hf =>
        obtain ⟨line, happ, hne⟩ := read_header_field_ok inp rest _ hr
        have hlen : rest.length < inp.length := by
          have hpos : 0 < line.length := List.length_pos.mpr hne
          rw [happ, List.length_append]
          omega
        apply ih rest (hf :: header) (by omega)
        intro c hc
        apply h c
        rw [happ]
        exact List.mem_append_right _ hc

theorem long_line_head_length : long_line_head.length = LINE_BUF_SIZE - 1 := by
  simp [long_line_head, bytes, padding_length, LINE_BUF_SIZE]

theorem long_line_head_no_line_feed (c : Nat) (hc : c ∈ long_line_head) : c ≠ 10 := by
  have hget : ∀ c ∈ bytes "GET", c ≠ 10 := by decide
  have hver : ∀ c ∈ bytes "HTTP/1.0", c ≠ 10 := by decide
  rcases List.mem_append.mp hc with h | h
  · exact hget c h
  · rcases List.mem_cons.mp h with h | h
    · omega
    · rcases List.mem_append.mp h with h | h
      · rcases List.mem_cons.mp h with h | h
        · omega
        · rw [padding_mem c h]; decide
      · rcases List.mem_cons.mp h with h | h
        · omega
        · exact hver c h

theorem fgets_full (l rest : List Nat) (hlen : l.length = LINE_BUF_SIZE - 1)
    (hl : ∀ c ∈ l, c ≠ 10) : fgets LINE_BUF_SIZE (l ++ rest) = some (l, rest) := by
  unfold fgets
  rw [fgets_loop_full _ l rest hl hlen]
  cases l with
  | nil => simp [LINE_BUF_SIZE] at hlen
  | cons x xs => rfl

/-- C10 (as amended): for every input stream that ends before a line feed occurs, so that no
line break terminates the request line, `read_request` ends in `log_exit` (exit status 1)
and returns no request.  And for every stream that begins with `LINE_BUF_SIZE - 1` = 4095
bytes `l` without a line feed, so that the request line does not fit the line buffer, the
length alone is no error: `read_request_line` gives the result it gives on the stream that
holds the bytes `l` only, a request line or the same `log_exit`, and all bytes after `l`
are left in the stream. -/
theorem read_request_unterminated (inp l rest : List Nat) (h : ∀ c ∈ inp, c ≠ 10)
    (hlen : l.length = LINE_BUF_SIZE - 1) (hl : ∀ c ∈ l, c ≠ 10) :
    (∃ e rest2, read_request inp = Res.exit e rest2 ∧ e.status = 1)
    ∧ read_request_line (l ++ rest)
        = (match read_request_line l with
           | Res.ok rl _ => Res.ok rl rest
           | Res.exit e _ => Res.exit e rest) := by
  constructor
  · unfold read_request
    cases hrl : read_request_line inp with
    | exit e rest => exact ⟨e, rest, rfl, read_request_line_exit_status inp rest e hrl⟩
    | ok rl r1 =>
      obtain ⟨buf, _, _, _, _, hf, _⟩ := read_request_line_ok inp r1 rl hrl
      obtain ⟨happ, _⟩ := fgets_some _ _ _ _ hf
      have h1 : ∀ c ∈ r1, c ≠ 10 := by
        intro c hc
        apply h c
        rw [happ]
        exact List.mem_append_right _ hc
      obtain ⟨e, rest, he, hs⟩ :=
        read_header_fields_unterminated (r1.length + 1) r1 [] (Nat.lt_succ_self _) h1
      exact ⟨e, rest, by simp only [read_headers, he], hs⟩
  · have hfg1 : fgets LINE_BUF_SIZE (l ++ rest) = some (l, rest) := fgets_full l rest hlen hl
    have hfg2 : fgets LINE_BUF_SIZE l = some (l, []) := by
      have := fgets_full l [] hlen hl
      rwa [List.append_nil] at this
    unfold read_request_line
    rw [hfg1, hfg2]
    simp only []
    cases h1 : strchr l 32 with
    | none => rfl
    | some mp =>
      obtain ⟨m, path⟩ := mp
      simp only []
      cases h2 : strchr path 32 with
      | none => rfl
      | some pp =>
        obtain ⟨path2, p⟩ := pp
        simp only []
        split_ifs <;> rfl

/-- C10, witness: the stream `GET / HTTP/1.0` ends without a line break; and the 4095 bytes
`GET /aaa...a HTTP/1.0` followed by `Host: x` and two line feeds. -/
theorem read_request_unterminated_witness :
    (∃ e rest2, read_request (bytes "GET / HTTP/1.0") = Res.exit e rest2 ∧ e.status = 1)
    ∧ read_request_line (long_line_head ++ bytes "Host: x\n\n")
        = (match read_request_line long_line_head with
           | Res.ok rl _ => Res.ok rl (bytes "Host: x\n\n")
           | Res.exit e _ => Res.exit e (bytes "Host: x\n\n")) :=
  read_request_unterminated (bytes "GET / HTTP/1.0") long_line_head (bytes "Host: x\n\n")
    (by decide) long_line_head_length long_line_head_no_line_feed


/-! ## Bound on the request body -/

theorem atoi_single_digit (d : Nat) (t : List Nat) (hd : d < 10)
    (ht : t.head?.all (fun c => !isdigit c) = true) : atoi ((d + 48) :: t) = (d : Int) := by
  have hdig : strtol_digits 0 ((d + 48) :: t) = d := by
    have h := strtol_digits_text [d] (by simpa using hd) 0 t ht
    simpa [decimal_text] using h
  have hsp : isspace (d + 48) = false := by simp [isspace]
  have hstr : strtol ((d + 48) :: t) = (d : Int) := by
    unfold strtol
    simp only [List.dropWhile_cons, hsp]
    split
    · rename_i heq; simp at heq
    · rename_i heq; simp at heq
    · simp only [Bool.false_eq_true, if_false]
      rw [hdig]
      simp only [LONG_MAX, LONG_MIN]
      omega
  unfold atoi long_to_int
  rw [hstr]
  omega

theorem atoi_range (s : List Nat) : -2147483648 ≤ atoi s ∧ atoi s ≤ 2147483647 := by
  unfold atoi long_to_int
  omega

theorem read_request_line_ok_fields (inp rest : List Nat) (rl : RequestLine)
    (h : read_request_line inp = Res.ok rl rest) :
    ∃ buf m q path p, fgets LINE_BUF_SIZE inp = some (buf, rest)
      ∧ strchr buf 32 = some (m, q) ∧ strchr q 32 = some (path, p)
      ∧ strncasecmp p (bytes "HTTP/1.") (strlen (bytes "HTTP/1.")) = 0
      ∧ rl = { protocol_minor_version := atoi (p.drop 7)
               method := upcase (strcpy m)
               path := strcpy path } := by
  unfold read_request_line at h
  split at h
  · cases h
  · rename_i buf r hf
    split at h
    · cases h
    · rename_i m q hm
      split at h
      · cases h
      · rename_i path p hp
        split at h
        · cases h
        · rename_i hcmp
          cases h
          exact ⟨buf, m, q, path, p, hf, hm, hp, by simpa using hcmp, by rw [strlen_http1]⟩

/-- C12 (as amended): for every request that `read_request` parses successfully, the stored
protocol minor version is the `int` that `atoi` reads in the request line right after the
prefix `HTTP/1.` (any casing) of the text that follows the second space.  A single digit
`d` there, followed by a byte that is no digit, is stored as `d`: the version is 0 for
`HTTP/1.0`, 1 for `HTTP/1.1`, and for instance 7 for `HTTP/1.7`.  It always lies in the
range of `int`. -/
theorem read_request_minor_version (inp rest : List Nat) (req : HTTPRequest)
    (h : read_request inp = Res.ok req rest) :
    ∃ buf r1 m path p, fgets LINE_BUF_SIZE inp = some (buf, r1)
      ∧ buf = m ++ 32 :: (path ++ 32 :: p)
      ∧ (∀ c ∈ m, c ≠ 32) ∧ (∀ c ∈ path, c ≠ 32)
      ∧ begins_with_http1 p
      ∧ req.protocol_minor_version = atoi (p.drop 7)
      ∧ (∀ (d : Nat) (t : List Nat), d < 10 → p.drop 7 = (d + 48) :: t →
          t.head?.all (fun c => !isdigit c) = true → req.protocol_minor_version = (d : Int))
      ∧ -2147483648 ≤ req.protocol_minor_version
      ∧ req.protocol_minor_version ≤ 2147483647 := by
  obtain ⟨rl, r1, hrl, _, _, hver⟩ := read_request_ok_line inp rest req h
  obtain ⟨buf, m, q, path, p, hf, hm, hq, hcmp, hfields⟩ :=
    read_request_line_ok_fields inp r1 rl hrl
  obtain ⟨hbm, hm32⟩ := strchr_some buf 32 m q hm
  obtain ⟨hqp, hp32⟩ := strchr_some q 32 path p hq
  have hv : req.protocol_minor_version = atoi (p.drop 7) := by
    rw [hver, hfields]
  refine ⟨buf, r1, m, path, p, hf, by rw [hbm, hqp], hm32, hp32,
    (strncasecmp_http1_zero p hcmp).1, hv, ?_, ?_, ?_⟩
  · intro d t hd hp ht
    rw [hv, hp]
    exact atoi_single_digit d t hd ht
  · rw [hv]; exact (atoi_range _).1
  · rw [hv]; exact (atoi_range _).2

/-- C12, witness: the request `GET / HTTP/1.1`, stored with minor version 1. -/
theorem read_request_minor_version_witness :
    ∃ buf r1 m path p,
      fgets LINE_BUF_SIZE (bytes "GET / HTTP/1.1\r\n\r\n") = some (buf, r1)
      ∧ buf = m ++ 32 :: (path ++ 32 :: p)
      ∧ (∀ c ∈ m, c ≠ 32) ∧ (∀ c ∈ path, c ≠ 32)
      ∧ begins_with_http1 p
      ∧ (1 : Int) = atoi (p.drop 7)
      ∧ (∀ (d : Nat) (t : List Nat), d < 10 → p.drop 7 = (d + 48) :: t →
          t.head?.all (fun c => !isdigit c) = true → (1 : Int) = (d : Int))
      ∧ -2147483648 ≤ (1 : Int)
      ∧ (1 : Int) ≤ 2147483647 :=
  read_request_minor_version (bytes "GET / HTTP/1.1\r\n\r\n") []
    { protocol_minor_version := 1, method := bytes "GET", path := bytes "/", header := []
      body := none, length := 0 } (by decide)

/-- C12, counterexample: the request `GET / HTTP/1.7` is parsed successfully and its stored
protocol minor version is 7, neither 0 nor 1. -/
theorem read_request_minor_version_counterexample :
    read_request (bytes "GET / HTTP/1.7\r\n\r\n")
      = Res.ok { protocol_minor_version := 7, method := bytes "GET", path := bytes "/"
                 header := [], body := none, length := 0 } []
    ∧ (7 : Int) ≠ 0 ∧ (7 : Int) ≠ 1 := by
  decide

/-! ## Header fields -/

theorem split_at_first (c : Nat) (a b : List Nat) (ha : ∀ x ∈ a, x ≠ c) :
    (a ++ c :: b).takeWhile (fun x => x != c) = a
      ∧ ((a ++ c :: b).dropWhile (fun x => x != c)).drop 1 = b := by
  induction a with
  | nil => simp
  | cons x xs ih =>
    have hx : x ≠ c := ha x (List.mem_cons_self _ _)
    obtain ⟨h1, h2⟩ := ih (fun y hy => ha y (List.mem_cons_of_mem _ hy))
    simp [hx, h1, h2]

theorem strchr_of_no_nul (s : List Nat) (c : Nat) (h0 : ∀ x ∈ s, x ≠ 0) :
    strchr s c = if c ∈ s then
        some (s.takeWhile (fun x => x != c), (s.dropWhile (fun x => x != c)).drop 1)
      else none := by
  induction s with
  | nil => simp [strchr]
  | cons x xs ih =>
    have hx0 : x ≠ 0 := h0 x (List.mem_cons_self _ _)
    have ih1 := ih (fun y hy => h0 y (List.mem_cons_of_mem _ hy))
    by_cases hx : x = c
    · subst hx
      simp [strchr]
    · have hcx : ¬ c = x := fun h => hx h.symm
      by_cases hmem : c ∈ xs
      · simp [strchr, hx, hx0, hcx, ih1, hmem]
      · simp [strchr, hx, hx0, hcx, ih1, hmem]

theorem fgets_line_feed_first (size : Nat) (inp l rest : List Nat)
    (hf : fgets size inp = some (l, rest)) (hh : l.headD 0 = 10) : l = [10] := by
  unfold fgets at hf
  split at hf
  · cases hf
  · rename_i a b _ heq
    cases hf
    cases hk : size - 1 with
    | zero =>
      rw [hk] at heq
      simp only [fgets_loop, Prod.mk.injEq] at heq
      rw [← heq.1] at hh
      simp at hh
    | succ k =>
      rw [hk] at heq
      cases inp with
      | nil =>
        simp only [fgets_loop, Prod.mk.injEq] at heq
        rw [← heq.1] at hh
        simp at hh
      | cons c s =>
        by_cases hc : c = 10
        · simp only [fgets_loop, hc, if_true, Prod.mk.injEq] at heq
          exact heq.1.symm
        · simp only [fgets_loop, hc, if_false, Prod.mk.injEq] at heq
          rw [← heq.1] at hh
          simp only [List.headD_cons] at hh
          exact absurd hh hc

theorem strcpy_head (l : List Nat) (x : Nat) (h : (strcpy l).head? = some x) :
    l.head? = some x := by
  cases l with
  | nil => simp [strcpy] at h
  | cons a t =>
    by_cases ha : a = 0
    · simp [strcpy, ha] at h
    · simp [strcpy, ha] at h
      simp [h]

/-- What `read_header_field` stores when it returns a field. -/
theorem read_header_field_some (inp rest : List Nat) (hf : HTTPHeaderField)
    (h : read_header_field inp = Res.ok (some hf) rest) :
    ∃ l name p, fgets LINE_BUF_SIZE inp = some (l, rest) ∧ strchr l 58 = some (name, p)
      ∧ hf = { name := strcpy name
               value := strcpy (p.dropWhile (fun c => c == 32 || c == 9)) } := by
  unfold read_header_field at h
  split at h
  · cases h
  · rename_i buf r hfg
    split at h
    · cases h
    · split at h
      · cases h
      · rename_i name p hs
        cases h
        exact ⟨buf, name, p, hfg, hs, rfl⟩

/-- C13 (as amended): for every header field that `read_header_field` stores, the value is
trimmed of the spaces and horizontal tabs that follow the colon: the stored value does not
begin with a space or a tab.  The name is not trimmed: it is the text of the line before the
first colon, stored as it is. -/
theorem read_header_field_trims_value (inp rest : List Nat) (hf : HTTPHeaderField)
    (h : read_header_field inp = Res.ok (some hf) rest) :
    ∃ l, fgets LINE_BUF_SIZE inp = some (l, rest)
      ∧ hf.name = header_name l
      ∧ hf.value.head? ≠ some 32 ∧ hf.value.head? ≠ some 9 := by
  obtain ⟨l, name, p, hfg, hs, hfield⟩ := read_header_field_some inp rest hf h
  obtain ⟨hl, hn58⟩ := strchr_some l 58 name p hs
  have hname0 : ∀ x ∈ name, x ≠ 0 := by
    intro x hx hx0
    subst hx0
    -- a NUL before the colon would have stopped `strchr`
    have hstop : ∀ (a b : List Nat), (0 : Nat) ∈ a → (∀ y ∈ a, y ≠ 58) →
        strchr (a ++ 58 :: b) 58 = none := by
      intro a b
      induction a with
      | nil => intro hmem; simp at hmem
      | cons y ys ih =>
        intro hmem hne
        have hy : y ≠ 58 := hne y (List.mem_cons_self _ _)
        by_cases hy0 : y = 0
        · simp [strchr, hy, hy0]
        · have : (0 : Nat) ∈ ys := by
            rcases List.mem_cons.mp hmem with h1 | h1
            · exact absurd h1.symm hy0
            · exact h1
          simp [strchr, hy, hy0, ih this (fun z hz => hne z (List.mem_cons_of_mem _ hz))]
    rw [hl, hstop name p hx hn58] at hs
    cases hs
  have hval : ∀ x, hf.value.head? = some x → x ≠ 32 ∧ x ≠ 9 := by
    intro x hx
    rw [hfield] at hx
    have h1 := strcpy_head _ x hx
    have h2 := List.head?_dropWhile_not (fun c => c == 32 || c == 9) p
    rw [h1] at h2
    simp only [Bool.or_eq_false_iff, beq_eq_false_iff_ne, ne_eq] at h2
    exact h2
  refine ⟨l, hfg, ?_, ?_, ?_⟩
  · rw [hfield, hl]
    simp only [header_name, (split_at_first 58 name p hn58).1]
    exact strcpy_of_no_nul name hname0
  · intro hx; exact (hval 32 hx).1 rfl
  · intro hx; exact (hval 9 hx).2 rfl

/-- C13, witness: the header line `Host: \t example`. -/
theorem read_header_field_trims_value_witness :
    ∃ l, fgets LINE_BUF_SIZE (bytes "Host: \t example\r\n\r\n") = some (l, bytes "\r\n")
      ∧ bytes "Host" = header_name l
      ∧ (bytes "example\r\n").head? ≠ some 32 ∧ (bytes "example\r\n").head? ≠ some 9 :=
  read_header_field_trims_value (bytes "Host: \t example\r\n\r\n") (bytes "\r\n")
    { name := bytes "Host", value := bytes "example\r\n" } (by decide)

/-- C13, counterexample: the stored name of the line ` Host: x` begins with a space, and the
stored value of the line `Host:` (no value) begins with a carriage return; both are ASCII
white space. -/
theorem read_header_field_trim_counterexample :
    (read_header_field (bytes " Host: x\r\n")
        = Res.ok (some { name := bytes " Host", value := bytes "x\r\n" }) []
      ∧ (bytes " Host").head? = some 32 ∧ isspace 32 = true)
    ∧ (read_header_field (bytes "Host:\r\n")
        = Res.ok (some { name := bytes "Host", value := bytes "\r\n" }) []
      ∧ (bytes "\r\n").head? = some 13 ∧ isspace 13 = true) := by
  decide

/-- C16 (as amended): at the end of the stream `read_header_field` is fatal.  For every line
`l` that it reads (never empty) and that holds no NUL byte: if `l` consists solely of the
line terminator (`\n` or `\r\n`), `read_header_field` signals the end of the headers;
otherwise it fails fatally if and only if `l` contains no colon, and when `l` contains a
colon it returns the field whose name is the part of `l` before the first colon and whose
value is the part after that colon with its leading spaces and tabs stripped. -/
theorem read_header_field_line (inp : List Nat) :
    (fgets LINE_BUF_SIZE inp = none →
      read_header_field inp
        = Res.exit (log_exit LogMsg.failed_to_read_request_header_field) inp)
    ∧ ∀ l rest, fgets LINE_BUF_SIZE inp = some (l, rest) → (∀ c ∈ l, c ≠ 0) →
        l ≠ []
        ∧ (l = bytes "\n" ∨ l = bytes "\r\n" → read_header_field inp = Res.ok none rest)
        ∧ (l ≠ bytes "\n" → l ≠ bytes "\r\n" →
            ((∃ e r, read_header_field inp = Res.exit e r) ↔ 58 ∉ l)
            ∧ (58 ∉ l →
                read_header_field inp
                  = Res.exit (log_exit LogMsg.parse_error_on_request_header_field) rest)
            ∧ (58 ∈ l →
                read_header_field inp
                  = Res.ok (some { name := header_name l, value := header_value l })
                      rest)) := by
  constructor
  · intro hf
    simp only [read_header_field, hf]
  · intro l rest hf h0
    have hne : l ≠ [] := (fgets_some _ _ _ _ hf).2
    have hlf : bytes "\n" = [10] := by decide
    have hcrlf : bytes "\r\n" = [13, 10] := by decide
    have hcmp : strcmp l (bytes "\r\n") = 0 ↔ l = bytes "\r\n" :=
      strcmp_eq_zero_iff l (bytes "\r\n") h0 (by decide)
    refine ⟨hne, ?_, ?_⟩
    · intro hterm
      have hcond : l.headD 0 = 10 ∨ strcmp l (bytes "\r\n") = 0 := by
        rcases hterm with h | h
        · left; rw [h, hlf]; rfl
        · right; exact hcmp.mpr h
      simp only [read_header_field, hf, hcond, if_true]
    · intro h1 h2
      have hcond : ¬ (l.headD 0 = 10 ∨ strcmp l (bytes "\r\n") = 0) := by
        intro hc
        rcases hc with h | h
        · exact h1 (by rw [hlf]; exact fgets_line_feed_first _ _ _ _ hf h)
        · exact h2 (hcmp.mp h)
      have hno : 58 ∉ l → read_header_field inp
          = Res.exit (log_exit LogMsg.parse_error_on_request_header_field) rest := by
        intro hc
        simp only [read_header_field, hf, hcond, if_false, strchr_of_no_nul l 58 h0, hc]
      have hyes : 58 ∈ l → read_header_field inp
          = Res.ok (some { name := header_name l, value := header_value l }) rest := by
        intro hc
        have hn0 : ∀ x ∈ l.takeWhile (fun x => x != 58), x ≠ 0 :=
          fun x hx => h0 x ((List.takeWhile_sublist _).subset hx)
        have hv0 : ∀ x ∈ ((l.dropWhile (fun x => x != 58)).drop 1).dropWhile
            (fun c => c == 32 || c == 9), x ≠ 0 :=
          fun x hx => h0 x ((List.dropWhile_sublist _).subset
            (List.mem_of_mem_drop ((List.dropWhile_sublist _).subset hx)))
        simp only [read_header_field, hf, hcond, if_false, strchr_of_no_nul l 58 h0, hc,
          if_true, strcpy_of_no_nul _ hn0, strcpy_of_no_nul _ hv0, header_name, header_value]
      refine ⟨?_, hno, hyes⟩
      constructor
      · rintro ⟨e, r, he⟩
        intro hc
        rw [hyes hc] at he
        cases he
      · intro hc
        exact ⟨_, _, hno hc⟩

/-- C16, witness: the lines `\r\n`, `Host example` (no colon) and `Host:  example`. -/
theorem read_header_field_line_witness :
    read_header_field (bytes "\r\nbody") = Res.ok none (bytes "body")
    ∧ read_header_field (bytes "Host example\r\n")
        = Res.exit (log_exit LogMsg.parse_error_on_request_header_field) []
    ∧ read_header_field (bytes "Host:  example\r\n\r\n")
        = Res.ok (some { name := header_name (bytes "Host:  example\r\n")
                         value := header_value (bytes "Host:  example\r\n") })
            (bytes "\r\n") :=
  ⟨((read_header_field_line (bytes "\r\nbody")).2 (bytes "\r\n") (bytes "body") (by decide)
      (by decide)).2.1 (Or.inr rfl),
   (((read_header_field_line (bytes "Host example\r\n")).2 (bytes "Host example\r\n") []
      (by decide) (by decide)).2.2 (by decide) (by decide)).2.1 (by decide),
   (((read_header_field_line (bytes "Host:  example\r\n\r\n")).2 (bytes "Host:  example\r\n")
      (bytes "\r\n") (by decide) (by decide)).2.2 (by decide) (by decide)).2.2 (by decide)⟩

/-- C16, counterexample: the line `a`, NUL, `:b` contains a colon and is not a line
terminator, yet `read_header_field` fails fatally; of the line `a:b`, NUL, `c` the value
stored is `b`, not the whole part after the colon; and when nothing is left to read (an
empty line in the sense of no byte at all) the function is fatal and does not signal the end
of the headers. -/
theorem read_header_field_nul_counterexample :
    (58 ∈ [97, 0, 58, 98, 10]
      ∧ read_header_field [97, 0, 58, 98, 10]
          = Res.exit (log_exit LogMsg.parse_error_on_request_header_field) [])
    ∧ (read_header_field [97, 58, 98, 0, 99, 10]
          = Res.ok (some { name := [97], value := [98] }) []
      ∧ header_value [97, 58, 98, 0, 99, 10] = [98, 0, 99, 10])
    ∧ read_header_field []
        = Res.exit (log_exit LogMsg.failed_to_read_request_header_field) [] := by
  decide

/-! ## Header list, lookup and declared length -/

theorem tolower_eq_zero (c : Nat) : tolower c = 0 ↔ c = 0 := by
  unfold tolower
  split <;> omega

theorem strcasecmp_eq_zero_iff (a b : List Nat) (ha : ∀ c ∈ a, c ≠ 0) (hb : ∀ c ∈ b, c ≠ 0) :
    strcasecmp a b = 0 ↔ a.map tolower = b.map tolower := by
  induction a generalizing b with
  | nil =>
    cases b with
    | nil => simp [strcasecmp]
    | cons y ys =>
      have hy : tolower y ≠ 0 := fun h => hb y (List.mem_cons_self _ _) ((tolower_eq_zero y).mp h)
      simp [strcasecmp]; omega
  | cons x xs ih =>
    have hx0 : x ≠ 0 := ha x (List.mem_cons_self _ _)
    have hx : tolower x ≠ 0 := fun h => hx0 ((tolower_eq_zero x).mp h)
    cases b with
    | nil => simp [strcasecmp]; omega
    | cons y ys =>
      have ih1 := ih ys (fun c hc => ha c (List.mem_cons_of_mem _ hc))
        (fun c hc => hb c (List.mem_cons_of_mem _ hc))
      by_cases hxy : tolower x = tolower y
      · simp [strcasecmp, hxy, hx0, ih1]
      · have : (tolower x : Int) - (tolower y : Int) ≠ 0 := by omega
        simp [strcasecmp, hxy, this]

theorem lookup_header_field_value_find (hs : List HTTPHeaderField) (name : List Nat)
    (hnames : ∀ hf ∈ hs, ∀ c ∈ hf.name, c ≠ 0) (hname : ∀ c ∈ name, c ≠ 0) :
    lookup_header_field_value hs name
      = (hs.find? (fun hf => same_name hf.name name)).map (fun hf => hf.value) := by
  induction hs with
  | nil => simp [lookup_header_field_value]
  | cons hf next ih =>
    have ih1 := ih (fun g hg => hnames g (List.mem_cons_of_mem _ hg))
    have hiff := strcasecmp_eq_zero_iff hf.name name (hnames hf (List.mem_cons_self _ _)) hname
    by_cases hm : hf.name.map tolower = name.map tolower
    · simp [lookup_header_field_value, hiff.mpr hm, same_name, hm]
    · have hne : ¬ strcasecmp hf.name name = 0 := fun h => hm (hiff.mp h)
      simp [lookup_header_field_value, hne, same_name, hm, ih1]

theorem find_eq_head_filter (p : HTTPHeaderField → Bool) (l : List HTTPHeaderField) :
    l.find? p = (l.filter p).head? := by
  induction l with
  | nil => rfl
  | cons x xs ih =>
    rw [List.find?_cons, List.filter_cons]
    cases hx : p x
    · simp
    · simp

theorem find_reverse_eq_getLast_filter (p : HTTPHeaderField → Bool)
    (l : List HTTPHeaderField) : l.reverse.find? p = (l.filter p).getLast? := by
  rw [find_eq_head_filter, List.filter_reverse, List.head?_reverse]

/-- The parts of a request that `read_request` returns. -/
theorem read_request_ok_parts (inp rest : List Nat) (req : HTTPRequest)
    (h : read_request inp = Res.ok req rest) :
    ∃ rl r1 r2, read_request_line inp = Res.ok rl r1
      ∧ read_headers r1 = Res.ok req.header r2
      ∧ content_length req.header = Except.ok req.length := by
  cases hrl : read_request_line inp with
  | exit e r => simp [read_request, hrl] at h
  | ok rl r1 =>
    cases hhdr : read_headers r1 with
    | exit e r => simp [read_request, hrl, hhdr] at h
    | ok header r2 =>
      cases hlen : content_length header with
      | error e => simp [read_request, hrl, hhdr, hlen] at h
      | ok len =>
        simp only [read_request, hrl, hhdr, hlen] at h
        split at h
        · split at h
          · cases h
          · split at h
            · cases h
            · cases h; exact ⟨rl, r1, _, rfl, hhdr, hlen⟩
        · cases h; exact ⟨rl, r1, _, rfl, hhdr, hlen⟩

theorem read_header_field_of_line (l rest : List Nat) (hl : ∀ c ∈ l, c ≠ 10 ∧ c ≠ 0)
    (hne : l ≠ []) (hcr : l ≠ bytes "\r") (hk : l.length + 1 ≤ LINE_BUF_SIZE - 1) :
    read_header_field (l ++ 10 :: rest)
      = if 58 ∈ l then Res.ok (some (header_field_of_line l)) rest
        else Res.exit (log_exit LogMsg.parse_error_on_request_header_field) rest := by
  have hfg := fgets_line l rest (fun c hc => (hl c hc).1) hk
  have h0 : ∀ c ∈ l ++ [10], c ≠ 0 := by
    intro c hc
    rcases List.mem_append.mp hc with h | h
    · exact (hl c h).2
    · rw [List.mem_singleton.mp h]; decide
  have hcmp : strcmp (l ++ [10]) (bytes "\r\n") = 0 ↔ l ++ [10] = bytes "\r\n" :=
    strcmp_eq_zero_iff (l ++ [10]) (bytes "\r\n") h0 (by decide)
  have hcond : ¬ ((l ++ [10]).headD 0 = 10 ∨ strcmp (l ++ [10]) (bytes "\r\n") = 0) := by
    intro hc
    rcases hc with h | h
    · cases l with
      | nil => exact hne rfl
      | cons x xs => exact (hl x (List.mem_cons_self _ _)).1 h
    · have h2 : l ++ [10] = bytes "\r" ++ [10] := hcmp.mp h
      exact hcr (List.append_cancel_right h2)
  have hmem : 58 ∈ l ++ [10] ↔ 58 ∈ l := by simp
  have hn0 : ∀ x ∈ (l ++ [10]).takeWhile (fun x => x != 58), x ≠ 0 :=
    fun x hx => h0 x ((List.takeWhile_sublist _).subset hx)
  have hv0 : ∀ x ∈ (((l ++ [10]).dropWhile (fun x => x != 58)).drop 1).dropWhile
      (fun c => c == 32 || c == 9), x ≠ 0 :=
    fun x hx => h0 x ((List.dropWhile_sublist _).subset
      (List.mem_of_mem_drop ((List.dropWhile_sublist _).subset hx)))
  by_cases hc : 58 ∈ l
  · simp only [read_header_field, hfg, hcond, if_false, strchr_of_no_nul (l ++ [10]) 58 h0,
      hmem, hc, if_true, strcpy_of_no_nul _ hn0, strcpy_of_no_nul _ hv0, header_field_of_line,
      header_name, header_value]
  · simp only [read_header_field, hfg, hcond, if_false, strchr_of_no_nul (l ++ [10]) 58 h0,
      hmem, hc]

theorem read_header_field_blank_line (eol rest : List Nat)
    (heol : eol = bytes "\n" ∨ eol = bytes "\r\n") :
    read_header_field (eol ++ rest) = Res.ok none rest := by
  rcases heol with h | h
  · subst h
    have hfg := fgets_line [] rest (by simp) (by decide)
    show read_header_field ([] ++ 10 :: rest) = _
    simp only [read_header_field, hfg]
    rfl
  · subst h
    have hfg := fgets_line [13] rest (by decide) (by decide)
    show read_header_field ([13] ++ 10 :: rest) = _
    simp only [read_header_field, hfg]
    rfl

theorem read_header_fields_some (fuel : Nat) (inp rest : List Nat)
    (acc : List HTTPHeaderField) (f : HTTPHeaderField) (hfuel : inp.length < fuel)
    (h : read_header_field inp = Res.ok (some f) rest) :
    read_header_fields fuel inp acc = read_header_fields (rest.length + 1) rest (f :: acc) := by
  cases fuel with
  | zero => omega
  | succ fuel =>
    obtain ⟨line, happ, hne⟩ := read_header_field_ok inp rest _ h
    have hlen : rest.length < inp.length := by
      have hpos : 0 < line.length := List.length_pos.mpr hne
      rw [happ, List.length_append]
      omega
    unfold read_header_fields
    simp only [h]
    exact read_header_fields_fuel fuel (rest.length + 1) rest (f :: acc) (by omega)
      (Nat.lt_succ_self _)

theorem read_header_fields_none (fuel : Nat) (inp rest : List Nat)
    (acc : List HTTPHeaderField) (hfuel : inp.length < fuel)
    (h : read_header_field inp = Res.ok none rest) :
    read_header_fields fuel inp acc = Res.ok acc rest := by
  cases fuel with
  | zero => omega
  | succ fuel =>
    unfold read_header_fields
    simp only [h]

theorem read_header_fields_block (ls : List (List Nat)) (eol r2 : List Nat)
    (heol : eol = bytes "\n" ∨ eol = bytes "\r\n")
    (hls : ∀ l ∈ ls, (∀ c ∈ l, c ≠ 10 ∧ c ≠ 0) ∧ l ≠ [] ∧ l ≠ bytes "\r"
      ∧ l.length + 1 ≤ LINE_BUF_SIZE - 1)
    (fuel : Nat) (acc hs : List HTTPHeaderField) (rest : List Nat)
    (hfuel : (header_block ls ++ eol ++ r2).length < fuel)
    (h : read_header_fields fuel (header_block ls ++ eol ++ r2) acc = Res.ok hs rest) :
    hs = (ls.map header_field_of_line).reverse ++ acc ∧ rest = r2 := by
  induction ls generalizing fuel acc with
  | nil =>
    have hb := read_header_field_blank_line eol r2 heol
    simp only [header_block, List.nil_append] at h hfuel
    rw [read_header_fields_none fuel _ r2 acc hfuel hb] at h
    simp only [Res.ok.injEq] at h
    simp [h.1, h.2]
  | cons l ls ih =>
    obtain ⟨hl, hne, hcr, hk⟩ := hls l (List.mem_cons_self _ _)
    have hshape : header_block (l :: ls) ++ eol ++ r2
        = l ++ 10 :: (header_block ls ++ eol ++ r2) := by
      simp [header_block, List.append_assoc]
    rw [hshape] at h hfuel
    have hf := read_header_field_of_line l (header_block ls ++ eol ++ r2) hl hne hcr hk
    by_cases hc : 58 ∈ l
    · simp only [hc, if_true] at hf
      rw [read_header_fields_some fuel _ _ acc _ hfuel hf] at h
      obtain ⟨h1, h2⟩ := ih (fun m hm => hls m (List.mem_cons_of_mem _ hm)) _ _
        (Nat.lt_succ_self _) h
      refine ⟨?_, h2⟩
      rw [h1]
      simp
    · simp only [hc, if_false] at hf
      cases fuel with
      | zero => omega
      | succ fuel =>
        unfold read_header_fields at h
        simp only [hf] at h
        cases h

theorem header_field_of_line_name_no_nul (l : List Nat) (hl : ∀ c ∈ l, c ≠ 10 ∧ c ≠ 0) :
    ∀ c ∈ (header_field_of_line l).name, c ≠ 0 := by
  intro c hc
  have hsub : c ∈ l ++ [10] := (List.takeWhile_sublist _).subset hc
  rcases List.mem_append.mp hsub with h | h
  · exact (hl c h).2
  · rw [List.mem_singleton.mp h]; decide

theorem read_request_line_get_root (rest : List Nat) :
    read_request_line (bytes "GET / HTTP/1.0\r\n" ++ rest)
      = Res.ok { protocol_minor_version := 0, method := bytes "GET", path := bytes "/" }
          rest := by
  have hfg := fgets_line (bytes "GET / HTTP/1.0\r") rest (by decide) (by decide)
  show read_request_line (bytes "GET / HTTP/1.0\r" ++ 10 :: rest) = _
  unfold read_request_line
  rw [hfg]
  rfl

theorem long_header_chunk (rest : List Nat) :
    read_header_field ((bytes "X-Long-Lines: " ++ padding) ++ rest)
      = Res.ok (some { name := bytes "X-Long-Lines", value := padding }) rest := by
  have hpad10 : ∀ c ∈ padding, c ≠ 10 := fun c hc => by rw [padding_mem c hc]; decide
  have hpad0 : ∀ c ∈ padding, c ≠ 0 := fun c hc => by rw [padding_mem c hc]; decide
  have hname10 : ∀ c ∈ bytes "X-Long-Lines: ", c ≠ 10 := by decide
  have hl10 : ∀ c ∈ bytes "X-Long-Lines: " ++ padding, c ≠ 10 := by
    intro c hc
    rcases List.mem_append.mp hc with h | h
    · exact hname10 c h
    · exact hpad10 c h
  have hlen : (bytes "X-Long-Lines: " ++ padding).length = LINE_BUF_SIZE - 1 := by
    simp [bytes, padding_length, LINE_BUF_SIZE]
  have hfg := fgets_full _ rest hlen hl10
  have hshape : bytes "X-Long-Lines: " ++ padding
      = bytes "X-Long-Lines" ++ 58 :: (32 :: padding) := rfl
  have hhead : (bytes "X-Long-Lines: " ++ padding).headD 0 = 88 := rfl
  have hcmp : strcmp (bytes "X-Long-Lines: " ++ padding) (bytes "\r\n") = 75 := rfl
  have hcond : ¬ ((bytes "X-Long-Lines: " ++ padding).headD 0 = 10
      ∨ strcmp (bytes "X-Long-Lines: " ++ padding) (bytes "\r\n") = 0) := by
    rw [hhead, hcmp]
    decide
  have hstr : strchr (bytes "X-Long-Lines: " ++ padding) 58
      = some (bytes "X-Long-Lines", 32 :: padding) := by
    rw [hshape]
    exact strchr_append (bytes "X-Long-Lines") (32 :: padding) 58 (by decide) (by decide)
  have hdrop : (32 :: padding).dropWhile (fun c => c == 32 || c == 9) = padding := by
    rw [List.dropWhile_cons]
    simp only [beq_self_eq_true, Bool.true_or, if_true]
    rw [List.dropWhile_eq_self_iff]
    intro hpos
    have hmem : padding.get ⟨0, hpos⟩ ∈ padding := List.get_mem _ _ _
    rw [padding_mem _ hmem]
    decide
  have hname : strcpy (bytes "X-Long-Lines") = bytes "X-Long-Lines" := by decide
  simp only [read_header_field, hfg, hcond, if_false, hstr, hdrop, hname,
    strcpy_of_no_nul padding hpad0]

theorem long_header_line_one_line (c : Nat) (hc : c ∈ long_header_line) : c ≠ 10 ∧ c ≠ 0 := by
  have h1 : ∀ c ∈ bytes "X-Long-Lines: ", c ≠ 10 ∧ c ≠ 0 := by decide
  have h2 : ∀ c ∈ bytes "Content-Length: 3\r", c ≠ 10 ∧ c ≠ 0 := by decide
  rcases List.mem_append.mp hc with h | h
  · rcases List.mem_append.mp h with h | h
    · exact h1 c h
    · rw [padding_mem c h]; decide
  · exact h2 c h

theorem chap16_upcase (l : List Nat) : Chap16.upcase l = upcase l := by
  induction l with
  | nil => rfl
  | cons c cs ih => simp [Chap16.upcase, upcase, ih]

theorem chap16_read_request_line (inp : List Nat) :
    Chap16.read_request_line inp = read_request_line inp := by
  unfold Chap16.read_request_line read_request_line
  simp only [chap16_upcase]
  rfl

theorem chap16_read_header_field (inp : List Nat) :
    Chap16.read_header_field inp = read_header_field inp := rfl

theorem chap16_read_header_fields (fuel : Nat) (inp : List Nat)
    (header : List HTTPHeaderField) :
    Chap16.read_header_fields fuel inp header = read_header_fields fuel inp header := by
  induction fuel generalizing inp header with
  | zero => rfl
  | succ fuel ih =>
    unfold Chap16.read_header_fields read_header_fields
    rw [chap16_read_header_field]
    cases read_header_field inp with
    | exit e r => rfl
    | ok x r =>
      cases x with
      | none => rfl
      | some hf => exact ih r (hf :: header)

theorem chap16_lookup_header_field_value (header : List HTTPHeaderField) (name : List Nat) :
    Chap16.lookup_header_field_value header name = lookup_header_field_value header name := by
  induction header with
  | nil => rfl
  | cons hf next ih =>
    simp only [Chap16.lookup_header_field_value, lookup_header_field_value, ih]

theorem chap16_content_length (header : List HTTPHeaderField) :
    Chap16.content_length header = content_length header := by
  unfold Chap16.content_length content_length
  rw [chap16_lookup_header_field_value]
  rfl

theorem chap16_read_request (inp : List Nat) : Chap16.read_request inp = read_request inp := by
  unfold Chap16.read_request read_request
  simp only [chap16_read_request_line, Chap16.read_headers, read_headers,
    chap16_read_header_fields, chap16_content_length]
  rfl

theorem chap16_copy_loop_aux (n : Nat) : ∀ (remaining : List Nat) (error : Bool)
    (out : List Nat), remaining.length ≤ n →
    Chap16.copy_loop remaining error out = copy_loop remaining error out := by
  induction n with
  | zero =>
    intro remaining error out hlen
    have hnil : remaining = [] := List.length_eq_zero.mp (Nat.le_zero.mp hlen)
    subst hnil
    unfold Chap16.copy_loop copy_loop
    rfl
  | succ n ih =>
    intro remaining error out hlen
    cases remaining with
    | nil =>
      unfold Chap16.copy_loop copy_loop
      rfl
    | cons c cs =>
      unfold Chap16.copy_loop copy_loop
      have hlt : ((c :: cs).drop BLOCK_BUF_SIZE).length ≤ n := by
        simp only [List.length_drop, List.length_cons, BLOCK_BUF_SIZE] at hlen ⊢
        omega
      exact ih _ error _ hlt

theorem chap16_copy_loop (remaining : List Nat) (error : Bool) (out : List Nat) :
    Chap16.copy_loop remaining error out = copy_loop remaining error out :=
  chap16_copy_loop_aux remaining.length remaining error out (Nat.le_refl _)

theorem chap16_not_found (clock : Clock) (out : List Nat) :
    Chap16.not_found clock out = not_found clock out := rfl

theorem chap16_do_file_respond (req : HTTPRequest) (out docroot : List Nat)
    (fs : FileSystem) (clock : Clock) :
    Chap16.do_file_respond req out docroot fs clock = do_file_respond req out docroot fs clock := by
  unfold Chap16.do_file_respond do_file_respond
  simp only [chap16_not_found, chap16_copy_loop]
  rfl

theorem chap16_respond_to (req : HTTPRequest) (out docroot : List Nat)
    (fs : FileSystem) (clock : Clock) :
    Chap16.respond_to req out docroot fs clock = respond_to req out docroot fs clock := by
  unfold Chap16.respond_to respond_to
  simp only [chap16_do_file_respond]
  rfl

theorem chap16_service (inp docroot : List Nat) (fs : FileSystem) (clock : Clock) :
    Chap16.service inp docroot fs clock = service inp docroot fs clock := by
  unfold Chap16.service service
  simp only [chap16_read_request, chap16_respond_to]

theorem read_header_fields_exit_status (fuel : Nat) (inp : List Nat)
    (header : List HTTPHeaderField) (e : Exit) (r : List Nat)
    (h : read_header_fields fuel inp header = Res.exit e r) : e.status = 1 := by
  induction fuel generalizing inp header with
  | zero =>
    simp only [read_header_fields, Res.exit.injEq] at h
    rw [← h.1]; rfl
  | succ fuel ih =>
    unfold read_header_fields at h
    cases hr : read_header_field inp with
    | exit e2 r2 =>
      simp only [hr, Res.exit.injEq] at h
      rw [← h.1]
      exact read_header_field_exit_status inp r2 e2 hr
    | ok x r2 =>
      cases x with
      | none => simp [hr] at h
      | some hf =>
        simp only [hr] at h
        exact ih r2 (hf :: header) h

theorem content_length_error_status (header : List HTTPHeaderField) (e : Exit)
    (h : content_length header = Except.error e) : e.status = 1 := by
  unfold content_length at h
  split at h
  · cases h
  · simp only [] at h
    split at h
    · rw [← Except.error.inj h]; rfl
    · cases h

theorem read_request_exit_status (inp r : List Nat) (e : Exit)
    (h : read_request inp = Res.exit e r) : e.status = 1 := by
  cases hrl : read_request_line inp with
  | exit e1 r1 =>
    simp only [read_request, hrl, Res.exit.injEq] at h
    rw [← h.1]
    exact read_request_line_exit_status inp r1 e1 hrl
  | ok rl r1 =>
    cases hhdr : read_headers r1 with
    | exit e2 r2 =>
      simp only [read_request, hrl, hhdr, Res.exit.injEq] at h
      rw [← h.1]
      exact read_header_fields_exit_status _ _ _ e2 r2 hhdr
    | ok header r2 =>
      cases hlen : content_length header with
      | error e3 =>
        simp only [read_request, hrl, hhdr, hlen, Res.exit.injEq] at h
        rw [← h.1]
        exact content_length_error_status header e3 hlen
      | ok len =>
        simp only [read_request, hrl, hhdr, hlen] at h
        split at h
        · split at h
          · simp only [Res.exit.injEq] at h
            rw [← h.1]; rfl
          · split at h
            · simp only [Res.exit.injEq] at h
              rw [← h.1]; rfl
            · cases h
        · cases h

theorem do_file_respond_exit_status (req : HTTPRequest) (docroot : List Nat)
    (fs : FileSystem) (clock : Clock) (e : Exit)
    (h : (do_file_respond req [] docroot fs clock).exit = some e) : e.status = 1 := by
  cases clock with
  | none =>
    rw [do_file_respond_gmtime_failed] at h
    simp only [Option.some.injEq] at h
    rw [← h]; rfl
  | some date =>
    unfold do_file_respond at h
    cases hok : (get_fileinfo fs docroot req.path).ok with
    | false => simp [hok, not_found_some] at h
    | true =>
      simp only [hok, Bool.not_true, Bool.false_eq_true, if_false,
        output_common_header_fileds_some date [] (bytes "200 OK") (by decide)] at h
      split at h
      · cases hopen : fs.open_rdonly (get_fileinfo fs docroot req.path).path with
        | none =>
          simp only [hopen, Option.some.injEq] at h
          rw [← h]; rfl
        | some fd =>
          simp only [hopen, copy_loop_spec] at h
          cases herr : fd.error with
          | false => simp [herr] at h
          | true =>
            simp only [herr, if_true, Option.some.injEq] at h
            rw [← h]; rfl
      · simp at h

theorem respond_to_exit_status (req : HTTPRequest) (docroot : List Nat)
    (fs : FileSystem) (clock : Clock) (e : Exit)
    (h : (respond_to req [] docroot fs clock).exit = some e) : e.status = 1 := by
  unfold respond_to at h
  split at h
  · exact do_file_respond_exit_status req docroot fs clock e h
  · split at h
    · exact do_file_respond_exit_status req docroot fs clock e h
    · cases clock with
      | none =>
        split at h <;>
          simp only [method_not_allowed, not_implemented, output_common_header_fileds,
            Option.some.injEq] at h <;>
          (rw [← h]; rfl)
      | some date =>
        split at h
        · simp [method_not_allowed_some] at h
        · simp [not_implemented_some] at h

theorem service_exit_status (inp docroot : List Nat) (fs : FileSystem) (clock : Clock)
    (e : Exit) (h : (service inp docroot fs clock).exit = some e) : e.status = 1 := by
  unfold service at h
  cases hr : read_request inp with
  | exit e1 r1 =>
    simp only [hr, Option.some.injEq] at h
    rw [← h]
    exact read_request_exit_status inp r1 e1 hr
  | ok req r1 =>
    simp only [hr] at h
    exact respond_to_exit_status req docroot fs clock e h

/-- C17: for every input byte stream, document root, file-system state and clock value, the
service function of the stdin/stdout server (`chap16/server.c`) and the service function of
the daemon server (`chap17/server2.c`) are equivalent: they write the same bytes to the
output stream, and either both return normally or both terminate in `log_exit` with exit
status 1 (at the same call site). -/
theorem service_chap16_equivalent (inp docroot : List Nat) (fs : FileSystem) (clock : Clock) :
    (Chap16.service inp docroot fs clock).out = (service inp docroot fs clock).out
    ∧ (((Chap16.service inp docroot fs clock).exit = none
          ∧ (service inp docroot fs clock).exit = none)
        ∨ ∃ e16 e17, (Chap16.service inp docroot fs clock).exit = some e16
            ∧ (service inp docroot fs clock).exit = some e17
            ∧ e16.status = 1 ∧ e17.status = 1 ∧ e16.msg = e17.msg) := by
  rw [chap16_service]
  refine ⟨rfl, ?_⟩
  cases hexit : (service inp docroot fs clock).exit with
  | none => exact Or.inl ⟨rfl, rfl⟩
  | some e =>
    have hs := service_exit_status inp docroot fs clock e hexit
    exact Or.inr ⟨e, e, rfl, rfl, hs, hs, rfl⟩

end Stdlinux
